import Mathlib

/-
Shallow embedding of the calamari-template balance indexer.

The repository contains two variants of the batch processor (src/unnamed/part_000
and src/unnamed/part_001, namespaces `P000` and `P001` below), a chain-state
module (src/src/chainState.ts) and the generated storage accessors
(src/src/types/generated/storage.ts).

Modelling conventions:
  * Raw public-key bytes (`Uint8Array`), their hex encoding (`toHex`/`decodeHex`)
    and the ss58 display address (`encodeId`, an external injective codec) are
    all represented by abstract numeric identifiers; the three conversion
    functions are injective external bijections/encodings and are modelled as
    the identity on those abstract identifiers.
  * JS `bigint` balances are chain balances (non-negative, arbitrary precision)
    and are modelled as `Nat`; block timestamps (JS `number`, milliseconds) as `Int`.
  * The persistence layer (typeorm `Store`) is modelled as a `DB` record of row
    lists; `save` upserts by primary key, `remove` deletes by primary key,
    `insert` appends, `count` is the list length.
  * `queryStorage` yields `Option` values per key: a key whose storage entry is
    not returned surfaces as `undefined` in the JS arrays (the `if (!balance)`
    guard in `saveAccounts`), modelled as `none`.
  * Thrown exceptions (`UnknownVersionError`, node `assert`, property access on
    `undefined`) are modelled with `Except PipelineError`.
-/

/-- Raw account identifier: stands for the `Uint8Array` public-key bytes. -/
abbrev RawId := Nat

/-- Hex-string form of a raw identifier (the `accountIdsHex` set elements). -/
abbrev HexId := Nat

/-- Encoded ss58 display address (the `Account.id` string column). -/
abbrev AccountId := Nat

/-- `toHex` from subsquid: hex encoding of raw bytes, an external bijection,
modelled as the identity on abstract identifiers. -/
def toHex (id : RawId) : HexId := id

/-- `decodeHex` from subsquid: inverse of `toHex`, modelled as the identity. -/
def decodeHex (id : HexId) : RawId := id

/-- `encodeId` (processor.ts): `ss58.codec('calamari').encode(id)`, an external
injective address codec, modelled as the identity on abstract identifiers. -/
def encodeId (id : RawId) : AccountId := id

/-- Errors that abort a run: `UnknownVersionError` (processor.ts / chainState.ts),
a failing node `assert` inside a generated storage accessor, and a JS `TypeError`
from accessing a property of `undefined`. -/
inductive PipelineError where
  | unknownVersion (name : String)
  | assertFailed
  | typeError
deriving DecidableEq, Repr

/-- `v1.AccountData` (types/generated/v1.ts). -/
structure AccountData where
  free : Nat
  reserved : Nat
  miscFrozen : Nat
  feeFrozen : Nat
deriving DecidableEq, Repr

/-- `v1.AccountInfo` (types/generated/v1.ts); the v3 shape exposes the same
`data.free` / `data.reserved` fields used by the processor. -/
structure AccountInfo where
  nonce : Nat
  consumers : Nat
  providers : Nat
  data : AccountData
deriving DecidableEq, Repr

/-- The `Balance` interface of both processor variants. -/
structure Balance where
  free : Nat
  reserved : Nat
deriving DecidableEq, Repr

/-- The `Account` entity (db/migrations: id PK, free, reserved, total,
updated_at nullable). A deletion placeholder `new Account({id})` leaves every
column but `id` unset; such rows are only ever used as removal keys, so the
unset columns are modelled with defaults (`0` / `none`). -/
structure Account where
  id : AccountId
  free : Nat
  reserved : Nat
  total : Nat
  updatedAt : Option Nat
deriving DecidableEq, Repr

/-- The `ChainState` entity (id PK, total_issuance, token_holders, timestamp,
block_number); `CurrentChainState` has the same shape. -/
structure ChainState where
  id : String
  timestamp : Int
  blockNumber : Nat
  totalIssuance : Nat
  tokenHolders : Nat
deriving DecidableEq, Repr

/-- The persisted store: account rows, append-only chain_state rows, and the
single current_chain_state row. -/
structure DB where
  accounts : List Account
  chainStates : List ChainState
  currentChainState : Option ChainState
deriving DecidableEq, Repr

/-- `SubstrateBlock` header fields used by the processors. -/
structure BlockHeader where
  id : String
  height : Nat
  hash : String
  timestamp : Int
deriving DecidableEq, Repr

/-- The chain interface visible to one block's storage queries: the storage
item type hashes reported by `getStorageItemTypeHash` for ('System','Account')
and ('Balances','TotalIssuance'), and the decoded storage contents at this
block. -/
structure Chain where
  systemAccountTypeHash : Option String
  totalIssuanceTypeHash : Option String
  systemAccount : RawId → Option AccountInfo
  totalIssuance : Nat

/-- Known type hash for System.Account V1 (types/generated/storage.ts). -/
def systemAccountV1TypeHash : String :=
  "73070b537f1805475b37167271b33ac7fd6ffad8ba62da08bc14937a017b8bb2"

/-- Known type hash for System.Account V3 (types/generated/storage.ts). -/
def systemAccountV3TypeHash : String :=
  "1ddc7ade926221442c388ee4405a71c9428e548fab037445aaf4b3a78f4735c1"

/-- Known type hash for Balances.TotalIssuance V1 (types/generated/storage.ts). -/
def totalIssuanceV1TypeHash : String :=
  "f8ebe28eb30158172c0ccf672f7747c46a244f892d08ef2ebcbaadde34a26bc0"

/-- `SystemAccountStorage.isV1` (storage.ts). -/
abbrev SystemAccountStorage.isV1 (c : Chain) : Prop :=
  c.systemAccountTypeHash = some systemAccountV1TypeHash

/-- `SystemAccountStorage.isV3` (storage.ts). -/
abbrev SystemAccountStorage.isV3 (c : Chain) : Prop :=
  c.systemAccountTypeHash = some systemAccountV3TypeHash

/-- `SystemAccountStorage.isExists` (storage.ts): the type hash is not null. -/
abbrev SystemAccountStorage.isExists (c : Chain) : Prop :=
  c.systemAccountTypeHash ≠ none

/-- `BalancesTotalIssuanceStorage.isV1` (storage.ts). -/
abbrev BalancesTotalIssuanceStorage.isV1 (c : Chain) : Prop :=
  c.totalIssuanceTypeHash = some totalIssuanceV1TypeHash

/-- `BalancesTotalIssuanceStorage.isExists` (storage.ts). -/
abbrev BalancesTotalIssuanceStorage.isExists (c : Chain) : Prop :=
  c.totalIssuanceTypeHash ≠ none

/-- `ctx._chain.queryStorage(hash, 'System', 'Account', keys)`: one batched
query returning one (possibly absent) decoded entry per requested key. -/
def queryStorageSystemAccount (c : Chain) (keys : List RawId) :
    List (Option AccountInfo) :=
  keys.map c.systemAccount

/-- `SystemAccountStorage.getManyAsV1` (storage.ts): `assert(this.isV1)` then a
batched `queryStorage`. -/
def SystemAccountStorage.getManyAsV1 (c : Chain) (keys : List RawId) :
    Except PipelineError (List (Option AccountInfo)) :=
  if SystemAccountStorage.isV1 c then .ok (queryStorageSystemAccount c keys)
  else .error .assertFailed

/-- `SystemAccountStorage.getManyAsV3` (storage.ts): `assert(this.isV3)` then a
batched `queryStorage`. -/
def SystemAccountStorage.getManyAsV3 (c : Chain) (keys : List RawId) :
    Except PipelineError (List (Option AccountInfo)) :=
  if SystemAccountStorage.isV3 c then .ok (queryStorageSystemAccount c keys)
  else .error .assertFailed

/-- `BalancesTotalIssuanceStorage.getAsV1` (storage.ts). -/
def BalancesTotalIssuanceStorage.getAsV1 (c : Chain) :
    Except PipelineError Nat :=
  if BalancesTotalIssuanceStorage.isV1 c then .ok c.totalIssuance
  else .error .assertFailed

/-- `getTotalIssuance` (chainState.ts): undefined when the storage item does not
exist, the decoded value on V1, `UnknownVersionError` otherwise. -/
def getTotalIssuance (c : Chain) : Except PipelineError (Option Nat) :=
  if ¬ BalancesTotalIssuanceStorage.isExists c then .ok none
  else if BalancesTotalIssuanceStorage.isV1 c then do
    let v ← BalancesTotalIssuanceStorage.getAsV1 c
    .ok (some v)
  else .error (.unknownVersion "BalancesTotalIssuanceStorage")

/-- `getChainState` (chainState.ts): id from the block, timestamp and height
from the block, issuance defaulted to 0 when absent, token holders =
`ctx.store.count(Account)`. -/
def getChainState (c : Chain) (db : DB) (block : BlockHeader) :
    Except PipelineError ChainState := do
  let issuance ← getTotalIssuance c
  .ok { id := block.id
        timestamp := block.timestamp
        blockNumber := block.height
        totalIssuance := issuance.getD 0
        tokenHolders := db.accounts.length }

/-- `saveRegularChainState` (chainState.ts): compute the state and
`ctx.store.insert` it as a new durable row. -/
def saveRegularChainState (c : Chain) (db : DB) (block : BlockHeader) :
    Except PipelineError DB := do
  let state ← getChainState c db block
  .ok { db with chainStates := db.chainStates ++ [state] }

/-- Modelled from the spec: `saveCurrentChainState` is imported by the
src/unnamed/part_000 processor from `./chainState` but its body is not among
the provided sources. Per the spec's current-state trigger it computes the
chain state for the given block and persists/overwrites the single
CurrentChainState row. -/
def saveCurrentChainState (c : Chain) (db : DB) (block : BlockHeader) :
    Except PipelineError DB := do
  let state ← getChainState c db block
  .ok { db with currentChainState := some state }

/-- Event schema version fingerprint as seen by the generated event decoders:
each decoder exposes `isV1` / `isV3100` / `isV3110` flags; `legacy` stands for
any fingerprint matching none of the known versions. -/
inductive EventVersion where
  | v1
  | v3100
  | v3110
  | legacy
deriving DecidableEq, Repr

/-- Decoded event payload. v1 payloads are positional tuples (`asV1[0]`,
`asV1[1]`); v3100/v3110 payloads expose named fields (`who` / `account` /
`from` / `to`), which occupy the same two argument slots. -/
structure Event where
  version : EventVersion
  arg0 : RawId
  arg1 : RawId
deriving DecidableEq, Repr

/-- A batch item as delivered to `processBalancesEventItem`: item kind, event
name, and the event payload. -/
structure EventItem where
  kind : String
  name : String
  event : Event
deriving DecidableEq, Repr

/-- One element of `ctx.blocks`: the block header and its items. -/
structure BatchBlock where
  header : BlockHeader
  items : List EventItem
deriving DecidableEq, Repr

/-- `getBalanceSetAccount`: v1 `asV1[0]`, v3110 `who`, else UnknownVersionError. -/
def getBalanceSetAccount (e : Event) : Except PipelineError HexId :=
  if e.version = .v1 then .ok (toHex e.arg0)
  else if e.version = .v3110 then .ok (toHex e.arg0)
  else .error (.unknownVersion "BalancesBalanceSetEvent")

/-- `getTransferAccounts`: v1 `[asV1[0], asV1[1]]`, v3110 `[from, to]`. -/
def getTransferAccounts (e : Event) : Except PipelineError (HexId × HexId) :=
  if e.version = .v1 then .ok (toHex e.arg0, toHex e.arg1)
  else if e.version = .v3110 then .ok (toHex e.arg0, toHex e.arg1)
  else .error (.unknownVersion "BalancesTransferEvent")

/-- `getEndowedAccount`: v1 `asV1[0]`, v3110 `account`. -/
def getEndowedAccount (e : Event) : Except PipelineError HexId :=
  if e.version = .v1 then .ok (toHex e.arg0)
  else if e.version = .v3110 then .ok (toHex e.arg0)
  else .error (.unknownVersion "BalancesEndowedEvent")

/-- `getDepositAccount`: v1 `asV1[0]`, v3110 `who`. -/
def getDepositAccount (e : Event) : Except PipelineError HexId :=
  if e.version = .v1 then .ok (toHex e.arg0)
  else if e.version = .v3110 then .ok (toHex e.arg0)
  else .error (.unknownVersion "BalancesDepositEvent")

/-- `getReservedAccount`: v1 `asV1[0]`, v3110 `who`. -/
def getReservedAccount (e : Event) : Except PipelineError HexId :=
  if e.version = .v1 then .ok (toHex e.arg0)
  else if e.version = .v3110 then .ok (toHex e.arg0)
  else .error (.unknownVersion "BalancesReservedEvent")

/-- `getUnreservedAccount`: v1 `asV1[0]`, v3110 `who`. -/
def getUnreservedAccount (e : Event) : Except PipelineError HexId :=
  if e.version = .v1 then .ok (toHex e.arg0)
  else if e.version = .v3110 then .ok (toHex e.arg0)
  else .error (.unknownVersion "BalancesUnreservedEvent")

/-- `getWithdrawAccount`: v3100 `asV3100[0]`, v3110 `who`. -/
def getWithdrawAccount (e : Event) : Except PipelineError HexId :=
  if e.version = .v3100 then .ok (toHex e.arg0)
  else if e.version = .v3110 then .ok (toHex e.arg0)
  else .error (.unknownVersion "BalancesWithdrawEvent")

/-- `getSlashedAccount`: v3100 `asV3100[0]`, v3110 `who`. -/
def getSlashedAccount (e : Event) : Except PipelineError HexId :=
  if e.version = .v3100 then .ok (toHex e.arg0)
  else if e.version = .v3110 then .ok (toHex e.arg0)
  else .error (.unknownVersion "BalancesSlashedEvent")

/-- `getReserveRepatriatedAccounts`: v1 `[asV1[0], asV1[1]]`, v3110 `[from, to]`. -/
def getReserveRepatriatedAccounts (e : Event) :
    Except PipelineError (HexId × HexId) :=
  if e.version = .v1 then .ok (toHex e.arg0, toHex e.arg1)
  else if e.version = .v3110 then .ok (toHex e.arg0, toHex e.arg1)
  else .error (.unknownVersion "BalancesReserveRepatriatedEvent")

/-- JS `Set.add` on the `accountIdsHex` accumulator: insertion-ordered,
deduplicating. -/
def setAdd (s : List HexId) (a : HexId) : List HexId :=
  if a ∈ s then s else s ++ [a]

/-- `processBalancesEventItem` (identical in both processor variants): dispatch
on the event name, extract the touched account(s), and add them to the
accumulator set. Unmatched names fall through the switch unchanged. -/
def processBalancesEventItem (item : EventItem) (acc : List HexId) :
    Except PipelineError (List HexId) :=
  if item.name = "Balances.BalanceSet" then
    match getBalanceSetAccount item.event with
    | .error e => .error e
    | .ok account => .ok (setAdd acc account)
  else if item.name = "Balances.Endowed" then
    match getEndowedAccount item.event with
    | .error e => .error e
    | .ok account => .ok (setAdd acc account)
  else if item.name = "Balances.Deposit" then
    match getDepositAccount item.event with
    | .error e => .error e
    | .ok account => .ok (setAdd acc account)
  else if item.name = "Balances.Reserved" then
    match getReservedAccount item.event with
    | .error e => .error e
    | .ok account => .ok (setAdd acc account)
  else if item.name = "Balances.Unreserved" then
    match getUnreservedAccount item.event with
    | .error e => .error e
    | .ok account => .ok (setAdd acc account)
  else if item.name = "Balances.Withdraw" then
    match getWithdrawAccount item.event with
    | .error e => .error e
    | .ok account => .ok (setAdd acc account)
  else if item.name = "Balances.Slashed" then
    match getSlashedAccount item.event with
    | .error e => .error e
    | .ok account => .ok (setAdd acc account)
  else if item.name = "Balances.Transfer" then
    match getTransferAccounts item.event with
    | .error e => .error e
    | .ok accounts => .ok (setAdd (setAdd acc accounts.1) accounts.2)
  else if item.name = "Balances.ReserveRepatriated" then
    match getReserveRepatriatedAccounts item.event with
    | .error e => .error e
    | .ok accounts => .ok (setAdd (setAdd acc accounts.1) accounts.2)
  else .ok acc

/-- JS `Map.set`: update in place when the key is present (insertion order
kept), append otherwise. -/
def mapSet (m : List (AccountId × Account)) (k : AccountId) (v : Account) :
    List (AccountId × Account) :=
  if m.any (fun p => p.1 = k) then
    m.map (fun p => if p.1 = k then (k, v) else p)
  else m ++ [(k, v)]

/-- The classification loop of `saveAccounts` (identical in both variants):
walk the requested ids against the positionally aligned balances array, skip
absent entries, and sort each present account into the `accounts` upsert map
(total > 0) or the `deletions` map (total = 0, keyed placeholder row). -/
def classifyAccounts (height : Nat) :
    List RawId → List (Option Balance) →
    List (AccountId × Account) → List (AccountId × Account) →
    List (AccountId × Account) × List (AccountId × Account)
  | [], _, accounts, deletions => (accounts, deletions)
  | _ :: ids, [], accounts, deletions =>
      classifyAccounts height ids [] accounts deletions
  | _ :: ids, none :: bals, accounts, deletions =>
      classifyAccounts height ids bals accounts deletions
  | aid :: ids, some balance :: bals, accounts, deletions =>
      let id := encodeId aid
      let total := balance.free + balance.reserved
      if 0 < total then
        classifyAccounts height ids bals
          (mapSet accounts id
            { id := id
              free := balance.free
              reserved := balance.reserved
              total := total
              updatedAt := some height })
          deletions
      else
        classifyAccounts height ids bals accounts
          (mapSet deletions id
            { id := id, free := 0, reserved := 0, total := 0, updatedAt := none })

/-- `ctx.store.save` for one row: upsert by primary key. -/
def saveRow : List Account → Account → List Account
  | [], a => [a]
  | r :: rs, a => if r.id = a.id then a :: rs else r :: saveRow rs a

/-- `ctx.store.save([...accounts.values()])`: transactional batch upsert. -/
def saveRows (rows : List Account) (toSave : List Account) : List Account :=
  toSave.foldl saveRow rows

/-- `ctx.store.remove([...deletions.values()])`: delete by primary key, no-op
for keys that have no row. -/
def removeRows (rows : List Account) (toRemove : List Account) : List Account :=
  rows.filter (fun r => toRemove.all (fun d => d.id ≠ r.id))

/-- Row lookup by primary key in the account table. -/
def lookupAccount (rows : List Account) (k : AccountId) : Option Account :=
  rows.find? (fun r => r.id = k)

namespace P000

/-- `getSystemAccountBalances` (src/unnamed/part_000): undefined when the
storage item does not exist; otherwise one batched `queryStorage` decoded to
free/reserved pairs, with no version check at all. -/
def getSystemAccountBalances (c : Chain) (accounts : List RawId) :
    Option (List (Option Balance)) :=
  if ¬ SystemAccountStorage.isExists c then none
  else
    some ((queryStorageSystemAccount c accounts).map
      (Option.map fun d => ({ free := d.data.free, reserved := d.data.reserved } : Balance)))

/-- `getBalances` (src/unnamed/part_000). -/
def getBalances (c : Chain) (accounts : List RawId) :
    Option (List (Option Balance)) :=
  getSystemAccountBalances c accounts

/-- `saveAccounts` (src/unnamed/part_000): fetch balances, bail out when the
result is absent, classify into upserts and deletions, then batch save and
batch remove. -/
def saveAccounts (c : Chain) (db : DB) (block : BlockHeader)
    (accountIds : List RawId) : DB :=
  match getBalances c accountIds with
  | none => db
  | some balances =>
      let maps := classifyAccounts block.height accountIds balances [] []
      let saved := saveRows db.accounts (maps.1.map Prod.snd)
      { db with accounts := removeRows saved (maps.2.map Prod.snd) }

/-- `SAVE_PERIOD` (src/unnamed/part_000): 12 hours in milliseconds. -/
def SAVE_PERIOD : Int := 12 * 60 * 60 * 1000

/-- Accumulator step selecting the row with the greatest timestamp, modelling
the `order: timestamp DESC` + first-row query of `getLastChainState`. -/
def maxTimestampRow (best : Option ChainState) (cs : ChainState) :
    Option ChainState :=
  match best with
  | none => some cs
  | some b => if b.timestamp < cs.timestamp then some cs else some b

/-- `getLastChainState` (src/unnamed/part_000): the ChainState row with the
greatest timestamp (`order: timestamp DESC`). -/
def getLastChainState (db : DB) : Option ChainState :=
  db.chainStates.foldl maxTimestampRow none

/-- The module-level mutable state of src/unnamed/part_000: the store plus
`lastStateTimestamp`. -/
structure ProcState where
  db : DB
  lastStateTimestamp : Option Int
deriving DecidableEq, Repr

/-- One iteration of the `for (const block of ctx.blocks)` loop of
`processBalances` (src/unnamed/part_000): process the block's items into the
accumulator, lazily initialize `lastStateTimestamp`, and when the on-chain
interval has elapsed save the touched accounts, insert a durable ChainState
row, advance the timestamp and clear the accumulator. -/
def processBlock (chainAt : String → Chain) (s : ProcState × List HexId)
    (b : BatchBlock) : Except PipelineError (ProcState × List HexId) := do
  let acc ← b.items.foldlM (fun acc item => processBalancesEventItem item acc) s.2
  let lastTs : Int :=
    match s.1.lastStateTimestamp with
    | some t => t
    | none =>
        match getLastChainState s.1.db with
        | some cs => cs.timestamp
        | none => 0
  if SAVE_PERIOD ≤ b.header.timestamp - lastTs then
    let accountIdsU8 := acc.map decodeHex
    let db1 := saveAccounts (chainAt b.header.hash) s.1.db b.header accountIdsU8
    let db2 ← saveRegularChainState (chainAt b.header.hash) db1 b.header
    .ok (⟨db2, some b.header.timestamp⟩, [])
  else
    .ok (⟨s.1.db, some lastTs⟩, acc)

/-- `processBalances` (src/unnamed/part_000): fold the block loop, then use the
last block of the batch to save the remaining touched accounts and overwrite
the current chain state. An empty batch crashes on `ctx.blocks[length-1]`. -/
def processBalances (chainAt : String → Chain) (st : ProcState)
    (blocks : List BatchBlock) : Except PipelineError ProcState := do
  let folded ← blocks.foldlM (processBlock chainAt) (st, [])
  match blocks.getLast? with
  | none => .error .typeError
  | some b =>
      let accountIdsU8 := folded.2.map decodeHex
      let db1 := saveAccounts (chainAt b.header.hash) folded.1.db b.header accountIdsU8
      let db2 ← saveCurrentChainState (chainAt b.header.hash) db1 b.header
      .ok ⟨db2, folded.1.lastStateTimestamp⟩

end P000

namespace P001

/-- `getSystemAccountBalances` (src/unnamed/part_001): undefined when the
storage item does not exist; the V1 accessor when the fingerprint is V1, and
otherwise unconditionally the V3 accessor (whose `assert(this.isV3)` fails on
any other fingerprint). -/
def getSystemAccountBalances (c : Chain) (accounts : List RawId) :
    Except PipelineError (Option (List (Option Balance))) :=
  if ¬ SystemAccountStorage.isExists c then .ok none
  else if SystemAccountStorage.isV1 c then do
    let data ← SystemAccountStorage.getManyAsV1 c accounts
    .ok (some (data.map
      (Option.map fun d => ({ free := d.data.free, reserved := d.data.reserved } : Balance))))
  else do
    let data ← SystemAccountStorage.getManyAsV3 c accounts
    .ok (some (data.map
      (Option.map fun d => ({ free := d.data.free, reserved := d.data.reserved } : Balance))))

/-- `getBalances` (src/unnamed/part_001). -/
def getBalances (c : Chain) (accounts : List RawId) :
    Except PipelineError (Option (List (Option Balance))) :=
  getSystemAccountBalances c accounts

/-- `saveAccounts` (src/unnamed/part_001): same reconciliation as the other
variant, but the balance fetch can throw. -/
def saveAccounts (c : Chain) (db : DB) (block : BlockHeader)
    (accountIds : List RawId) : Except PipelineError DB := do
  let fetched ← getBalances c accountIds
  match fetched with
  | none => .ok db
  | some balances =>
      let maps := classifyAccounts block.height accountIds balances [] []
      let saved := saveRows db.accounts (maps.1.map Prod.snd)
      .ok { db with accounts := removeRows saved (maps.2.map Prod.snd) }

/-- `processBalances` (src/unnamed/part_001): accumulate touched accounts over
every block of the batch, then — using the last block — first insert a durable
ChainState row and only afterwards reconcile the touched accounts. -/
def processBalances (chainAt : String → Chain) (db : DB)
    (blocks : List BatchBlock) : Except PipelineError DB := do
  let acc ← blocks.foldlM
    (fun acc b => b.items.foldlM
      (fun acc item =>
        if item.kind = "event" then processBalancesEventItem item acc else .ok acc)
      acc)
    []
  match blocks.getLast? with
  | none => .error .typeError
  | some b =>
      let accountIdsU8 := acc.map decodeHex
      let db1 ← saveRegularChainState (chainAt b.header.hash) db b.header
      let db2 ← saveAccounts (chainAt b.header.hash) db1 b.header accountIdsU8
      .ok db2

end P001

/-- The Account-store invariant: every persisted row's total is free + reserved
and is strictly positive. -/
def AccountInvariant (db : DB) : Prop :=
  ∀ a ∈ db.accounts, a.total = a.free + a.reserved ∧ 0 < a.total

/-- The decoded balance of one account at the reference block: the free and
reserved fields of its System.Account entry, when present. -/
def balanceOf (c : Chain) (a : RawId) : Option Balance :=
  (c.systemAccount a).map fun d => { free := d.data.free, reserved := d.data.reserved }

/-- The row `saveAccounts` upserts for a raw id, when its balance is present
and its total is positive. -/
def upsertRow (g : RawId → Option Balance) (height : Nat) (a : RawId) :
    Option Account :=
  match g a with
  | none => none
  | some b =>
      if 0 < b.free + b.reserved then
        some { id := encodeId a
               free := b.free
               reserved := b.reserved
               total := b.free + b.reserved
               updatedAt := some height }
      else none

/-- The placeholder row `saveAccounts` removes for a raw id, when its balance
is present and its total is zero. -/
def deleteRow (g : RawId → Option Balance) (a : RawId) : Option Account :=
  match g a with
  | none => none
  | some b =>
      if 0 < b.free + b.reserved then none
      else some { id := encodeId a, free := 0, reserved := 0, total := 0, updatedAt := none }

theorem encodeId_eq (a : RawId) : encodeId a = a := rfl

theorem mem_setAdd {s : List HexId} {a x : HexId} :
    x ∈ setAdd s a ↔ x = a ∨ x ∈ s := by
  unfold setAdd
  by_cases h : a ∈ s <;> simp [h] <;> aesop

theorem setAdd_nodup {s : List HexId} (h : s.Nodup) (a : HexId) :
    (setAdd s a).Nodup := by
  unfold setAdd
  by_cases ha : a ∈ s <;> simp [ha, h, List.nodup_append]

theorem mem_foldl_setAdd (l : List HexId) (s : List HexId) (x : HexId) :
    x ∈ l.foldl setAdd s ↔ x ∈ s ∨ x ∈ l := by
  induction l generalizing s with
  | nil => simp
  | cons a l ih =>
      simp only [List.foldl_cons, ih, mem_setAdd, List.mem_cons]
      tauto

theorem foldl_setAdd_nodup (l : List HexId) {s : List HexId} (h : s.Nodup) :
    (l.foldl setAdd s).Nodup := by
  induction l generalizing s with
  | nil => exact h
  | cons a l ih => exact ih (setAdd_nodup h a)

theorem foldl_setAdd_of_subset (l : List HexId) {s : List HexId}
    (h : ∀ x ∈ l, x ∈ s) : l.foldl setAdd s = s := by
  induction l with
  | nil => rfl
  | cons a l ih =>
      have ha : a ∈ s := h a (by simp)
      simp only [List.foldl_cons, setAdd, if_pos ha]
      exact ih fun x hx => h x (by simp [hx])

theorem lookupAccount_saveRow (rows : List Account) (a : Account) (k : AccountId) :
    lookupAccount (saveRow rows a) k =
      if k = a.id then some a else lookupAccount rows k := by
  induction rows with
  | nil =>
      by_cases h : k = a.id <;>
        simp [saveRow, lookupAccount, List.find?, h, Ne.symm]
  | cons r rs ih =>
      by_cases h : r.id = a.id
      · by_cases hk : k = a.id <;>
          simp_all [saveRow, lookupAccount, List.find?_cons, Ne.symm]
      · by_cases hk : k = r.id
        · have : ¬ k = a.id := fun hh => h (by rw [← hk, hh])
          simp_all [saveRow, lookupAccount, List.find?_cons]
        · simp_all [saveRow, lookupAccount, List.find?_cons, Ne.symm]

theorem lookupAccount_saveRows (rows toSave : List Account) (k : AccountId)
    (hnd : (toSave.map Account.id).Nodup) :
    lookupAccount (saveRows rows toSave) k =
      match toSave.find? (fun r => r.id = k) with
      | some r => some r
      | none => lookupAccount rows k := by
  induction toSave generalizing rows with
  | nil => simp [saveRows]
  | cons a as ih =>
      simp only [List.map_cons, List.nodup_cons] at hnd
      have step : saveRows rows (a :: as) = saveRows (saveRow rows a) as := rfl
      rw [step, ih _ hnd.2]
      by_cases hk : a.id = k
      · have hnone : as.find? (fun r => r.id = k) = none := by
          rw [List.find?_eq_none]
          intro r hr hrk
          have hrid : r.id = k := by simpa using hrk
          exact hnd.1 (by
            rw [← hk] at hrid
            exact hrid ▸ List.mem_map_of_mem Account.id hr)
        rw [hnone, lookupAccount_saveRow, if_pos hk.symm,
          List.find?_cons_of_pos _ (by simp [hk])]
      · rw [List.find?_cons_of_neg _ (by simp [hk]), lookupAccount_saveRow,
          if_neg (fun h => hk h.symm)]

theorem lookupAccount_removeRows (rows toRemove : List Account) (k : AccountId) :
    lookupAccount (removeRows rows toRemove) k =
      if ∃ d ∈ toRemove, d.id = k then none else lookupAccount rows k := by
  induction rows with
  | nil =>
      by_cases h : ∃ d ∈ toRemove, d.id = k <;>
        simp [removeRows, lookupAccount, h]
  | cons r rs ih =>
      simp only [removeRows, List.filter_cons] at ih ⊢
      by_cases hkeep : (toRemove.all fun d => decide (d.id ≠ r.id)) = true
      · rw [if_pos hkeep]
        simp only [List.all_eq_true, decide_eq_true_eq] at hkeep
        by_cases hk : r.id = k
        · have hnot : ¬ ∃ d ∈ toRemove, d.id = k := by
            rintro ⟨d, hd, hdk⟩
            exact hkeep d hd (by rw [hdk, hk])
          rw [if_neg hnot]
          unfold lookupAccount
          rw [List.find?_cons_of_pos _ (by simp [hk]),
            List.find?_cons_of_pos _ (by simp [hk])]
        · unfold lookupAccount
          rw [List.find?_cons_of_neg _ (by simp [hk]),
            List.find?_cons_of_neg _ (by simp [hk])]
          unfold lookupAccount at ih
          rw [ih]
      · rw [if_neg hkeep, ih]
        simp only [List.all_eq_true, decide_eq_true_eq, not_forall] at hkeep
        by_cases h : ∃ d ∈ toRemove, d.id = k
        · simp [h]
        · have hk : r.id ≠ k := by
            obtain ⟨d, hd, hdr⟩ := hkeep
            have hdr2 : d.id = r.id := by simpa using hdr
            intro hrk
            exact h ⟨d, hd, by rw [hdr2, hrk]⟩
          rw [if_neg h, if_neg h]
          unfold lookupAccount
          rw [List.find?_cons_of_neg _ (by simp [hk])]

theorem mapSet_of_forall_ne (m : List (AccountId × Account)) (k : AccountId)
    (v : Account) (h : ∀ p ∈ m, p.1 ≠ k) : mapSet m k v = m ++ [(k, v)] := by
  unfold mapSet
  rw [if_neg]
  intro hany
  rw [List.any_eq_true] at hany
  obtain ⟨p, hp, hpk⟩ := hany
  exact h p hp (by simpa using hpk)

theorem mem_mapSet {m : List (AccountId × Account)} {k : AccountId} {v : Account}
    {p : AccountId × Account} (hp : p ∈ mapSet m k v) : p = (k, v) ∨ p ∈ m := by
  unfold mapSet at hp
  split at hp
  · obtain ⟨q, hq, hqe⟩ := List.mem_map.1 hp
    by_cases hqk : q.1 = k
    · rw [if_pos hqk] at hqe
      exact Or.inl hqe.symm
    · rw [if_neg hqk] at hqe
      exact Or.inr (hqe ▸ hq)
  · rcases List.mem_append.1 hp with h | h
    · exact Or.inr h
    · exact Or.inl (by simpa using h)

theorem keys_mapSet {m : List (AccountId × Account)} {k : AccountId} {v : Account}
    (x : AccountId) :
    x ∈ (mapSet m k v).map Prod.fst ↔ x = k ∨ x ∈ m.map Prod.fst := by
  constructor
  · intro hx
    obtain ⟨p, hp, hpe⟩ := List.mem_map.1 hx
    rcases mem_mapSet hp with h | h
    · left
      rw [← hpe, h]
    · right
      exact List.mem_map.2 ⟨p, h, hpe⟩
  · intro hx
    unfold mapSet
    split
    · next hany =>
        rw [List.any_eq_true] at hany
        obtain ⟨q, hq, hqk⟩ := hany
        have hqk : q.1 = k := by simpa using hqk
        rw [List.map_map]
        rcases hx with rfl | hx
        · exact List.mem_map.2 ⟨q, hq, by simp [Function.comp, hqk]⟩
        · obtain ⟨p, hp, hpe⟩ := List.mem_map.1 hx
          by_cases hpk : p.1 = k
          · refine List.mem_map.2 ⟨p, hp, ?_⟩
            simp only [Function.comp_apply, if_pos hpk]
            rw [← hpe, hpk]
          · refine List.mem_map.2 ⟨p, hp, ?_⟩
            simp only [Function.comp_apply, if_neg hpk]
            exact hpe
    · rcases hx with rfl | hx
      · simp
      · obtain ⟨p, hp, hpe⟩ := List.mem_map.1 hx
        exact List.mem_map.2 ⟨p, List.mem_append_left _ hp, hpe⟩

theorem upsertRow_eq_none {g : RawId → Option Balance} {height : Nat} {a : RawId}
    (hga : g a = none) : upsertRow g height a = none := by
  unfold upsertRow
  rw [hga]

theorem upsertRow_eq_pos {g : RawId → Option Balance} {height : Nat} {a : RawId}
    {bal : Balance} (hga : g a = some bal) (htot : 0 < bal.free + bal.reserved) :
    upsertRow g height a = some
      { id := encodeId a, free := bal.free, reserved := bal.reserved,
        total := bal.free + bal.reserved, updatedAt := some height } := by
  unfold upsertRow
  rw [hga]
  exact if_pos htot

theorem upsertRow_eq_neg {g : RawId → Option Balance} {height : Nat} {a : RawId}
    {bal : Balance} (hga : g a = some bal) (htot : ¬ 0 < bal.free + bal.reserved) :
    upsertRow g height a = none := by
  unfold upsertRow
  rw [hga]
  exact if_neg htot

theorem deleteRow_eq_none {g : RawId → Option Balance} {a : RawId}
    (hga : g a = none) : deleteRow g a = none := by
  unfold deleteRow
  rw [hga]

theorem deleteRow_eq_pos {g : RawId → Option Balance} {a : RawId}
    {bal : Balance} (hga : g a = some bal) (htot : 0 < bal.free + bal.reserved) :
    deleteRow g a = none := by
  unfold deleteRow
  rw [hga]
  exact if_pos htot

theorem deleteRow_eq_neg {g : RawId → Option Balance} {a : RawId}
    {bal : Balance} (hga : g a = some bal) (htot : ¬ 0 < bal.free + bal.reserved) :
    deleteRow g a = some
      { id := encodeId a, free := 0, reserved := 0, total := 0, updatedAt := none } := by
  unfold deleteRow
  rw [hga]
  exact if_neg htot

theorem upsertRow_id {g : RawId → Option Balance} {height : Nat} {a : RawId}
    {r : Account} (h : upsertRow g height a = some r) : r.id = encodeId a := by
  unfold upsertRow at h
  split at h
  · cases h
  · split at h
    · injection h with h
      rw [← h]
    · cases h

theorem deleteRow_id {g : RawId → Option Balance} {a : RawId} {r : Account}
    (h : deleteRow g a = some r) : r.id = encodeId a := by
  unfold deleteRow at h
  split at h
  · cases h
  · split at h
    · cases h
    · injection h with h
      rw [← h]

theorem upsertRow_wellformed {g : RawId → Option Balance} {height : Nat}
    {a : RawId} {r : Account} (h : upsertRow g height a = some r) :
    r.total = r.free + r.reserved ∧ 0 < r.total := by
  unfold upsertRow at h
  split at h
  · cases h
  · next b _ =>
      split at h
      · next ht =>
          injection h with h
          rw [← h]
          exact ⟨rfl, ht⟩
      · cases h

theorem classifyAccounts_eq (height : Nat) (g : RawId → Option Balance)
    (ids : List RawId) :
    ∀ (accs dels : List (AccountId × Account)),
      ids.Nodup →
      (∀ a ∈ ids, ∀ p ∈ accs, p.1 ≠ encodeId a) →
      (∀ a ∈ ids, ∀ p ∈ dels, p.1 ≠ encodeId a) →
      classifyAccounts height ids (ids.map g) accs dels =
        (accs ++ ids.filterMap (fun a => (upsertRow g height a).map fun r => (encodeId a, r)),
         dels ++ ids.filterMap (fun a => (deleteRow g a).map fun r => (encodeId a, r))) := by
  induction ids with
  | nil =>
      intro accs dels _ _ _
      simp [classifyAccounts]
  | cons a ids ih =>
      intro accs dels hnd hacc hdel
      rw [List.nodup_cons] at hnd
      rw [List.map_cons]
      cases hga : g a with
      | none =>
          simp only [classifyAccounts]
          rw [ih accs dels hnd.2
            (fun a' ha' => hacc a' (List.mem_cons_of_mem _ ha'))
            (fun a' ha' => hdel a' (List.mem_cons_of_mem _ ha'))]
          simp only [List.filterMap_cons, upsertRow_eq_none hga, deleteRow_eq_none hga,
            Option.map_none']
      | some bal =>
          by_cases htot : 0 < bal.free + bal.reserved
          · simp only [classifyAccounts, if_pos htot]
            rw [mapSet_of_forall_ne _ _ _ (hacc a (List.mem_cons_self _ _))]
            rw [ih _ dels hnd.2
              (fun a' ha' p hp => by
                rcases List.mem_append.1 hp with h | h
                · exact hacc a' (List.mem_cons_of_mem _ ha') p h
                · have hpa : p.1 = encodeId a := by
                    have := List.mem_singleton.1 h
                    rw [this]
                  rw [hpa]
                  intro hcontra
                  exact hnd.1 (by
                    have : a = a' := by simpa [encodeId] using hcontra
                    rw [this]; exact ha')
              )
              (fun a' ha' => hdel a' (List.mem_cons_of_mem _ ha'))]
            rw [List.append_assoc]
            simp only [List.filterMap_cons, upsertRow_eq_pos hga htot,
              deleteRow_eq_pos hga htot, Option.map_some', Option.map_none',
              List.singleton_append]
          · simp only [classifyAccounts, if_neg htot]
            rw [mapSet_of_forall_ne _ _ _ (hdel a (List.mem_cons_self _ _))]
            rw [ih accs _ hnd.2
              (fun a' ha' => hacc a' (List.mem_cons_of_mem _ ha'))
              (fun a' ha' p hp => by
                rcases List.mem_append.1 hp with h | h
                · exact hdel a' (List.mem_cons_of_mem _ ha') p h
                · have hpa : p.1 = encodeId a := by
                    have := List.mem_singleton.1 h
                    rw [this]
                  rw [hpa]
                  intro hcontra
                  exact hnd.1 (by
                    have : a = a' := by simpa [encodeId] using hcontra
                    rw [this]; exact ha')
              )]
            rw [List.append_assoc]
            simp only [List.filterMap_cons, upsertRow_eq_neg hga htot,
              deleteRow_eq_neg hga htot, Option.map_some', Option.map_none',
              List.singleton_append]

theorem classifyAccounts_spec (height : Nat) (g : RawId → Option Balance)
    (ids : List RawId) (hnd : ids.Nodup) :
    classifyAccounts height ids (ids.map g) [] [] =
      (ids.filterMap (fun a => (upsertRow g height a).map fun r => (encodeId a, r)),
       ids.filterMap (fun a => (deleteRow g a).map fun r => (encodeId a, r))) := by
  simpa using classifyAccounts_eq height g ids [] [] hnd (by simp) (by simp)

theorem snd_filterMap_pair (f : RawId → Option Account) (ids : List RawId) :
    (ids.filterMap fun a => (f a).map fun r => (encodeId a, r)).map Prod.snd =
      ids.filterMap f := by
  induction ids with
  | nil => rfl
  | cons a ids ih => cases h : f a <;> simp [List.filterMap_cons, h, ih]

theorem find?_filterMap_upsert_not_mem (g : RawId → Option Balance) (height : Nat)
    (ids : List RawId) (a : RawId) (ha : a ∉ ids) :
    (ids.filterMap (upsertRow g height)).find? (fun r => r.id = encodeId a) = none := by
  rw [List.find?_eq_none]
  intro r hr hra
  obtain ⟨a', ha', hr'⟩ := List.mem_filterMap.1 hr
  have hid : r.id = encodeId a' := upsertRow_id hr'
  have hra : r.id = encodeId a := by simpa using hra
  have haa : a' = a := by
    have := hid.symm.trans hra
    simpa [encodeId] using this
  exact ha (haa ▸ ha')

theorem find?_filterMap_upsert (g : RawId → Option Balance) (height : Nat)
    (ids : List RawId) (hnd : ids.Nodup) (a : RawId) (ha : a ∈ ids) :
    (ids.filterMap (upsertRow g height)).find? (fun r => r.id = encodeId a) =
      upsertRow g height a := by
  induction ids with
  | nil => cases ha
  | cons a0 ids ih =>
      rw [List.nodup_cons] at hnd
      rcases List.mem_cons.1 ha with rfl | ha'
      · cases hup : upsertRow g height a with
        | none =>
            rw [List.filterMap_cons_none hup]
            exact find?_filterMap_upsert_not_mem g height ids a hnd.1
        | some r =>
            rw [List.filterMap_cons_some hup]
            exact List.find?_cons_of_pos _ (by simp [upsertRow_id hup])
      · have hne : a0 ≠ a := fun h => hnd.1 (h ▸ ha')
        cases hup : upsertRow g height a0 with
        | none =>
            rw [List.filterMap_cons_none hup]
            exact ih hnd.2 ha'
        | some r =>
            rw [List.filterMap_cons_some hup]
            rw [List.find?_cons_of_neg _ (by
              simp only [upsertRow_id hup, decide_eq_true_eq]
              simpa [encodeId] using hne)]
            exact ih hnd.2 ha'

theorem exists_filterMap_delete (g : RawId → Option Balance) (ids : List RawId)
    (x : AccountId) :
    (∃ d ∈ ids.filterMap (deleteRow g), d.id = x) ↔
      ∃ a ∈ ids, encodeId a = x ∧ (deleteRow g a).isSome := by
  constructor
  · rintro ⟨d, hd, hdx⟩
    obtain ⟨a, ha, hda⟩ := List.mem_filterMap.1 hd
    refine ⟨a, ha, ?_, by rw [hda]; rfl⟩
    rw [← deleteRow_id hda, hdx]
  · rintro ⟨a, ha, hax, hsome⟩
    obtain ⟨d, hd⟩ := Option.isSome_iff_exists.1 hsome
    exact ⟨d, List.mem_filterMap.2 ⟨a, ha, hd⟩, by rw [deleteRow_id hd, hax]⟩

theorem nodup_ids_filterMap_upsert (g : RawId → Option Balance) (height : Nat)
    (ids : List RawId) (hnd : ids.Nodup) :
    ((ids.filterMap (upsertRow g height)).map Account.id).Nodup := by
  induction ids with
  | nil => simp
  | cons a ids ih =>
      rw [List.nodup_cons] at hnd
      cases hup : upsertRow g height a with
      | none =>
          rw [List.filterMap_cons_none hup]
          exact ih hnd.2
      | some r =>
          rw [List.filterMap_cons_some hup]
          rw [List.map_cons, List.nodup_cons]
          refine ⟨?_, ih hnd.2⟩
          intro hmem
          obtain ⟨r', hr', hre⟩ := List.mem_map.1 hmem
          obtain ⟨a', ha', hr''⟩ := List.mem_filterMap.1 hr'
          have : a' = a := by
            have := (upsertRow_id hr'').symm.trans (hre.trans (upsertRow_id hup))
            simpa [encodeId] using this
          exact hnd.1 (this ▸ ha')

theorem isExists_of_isV1 {c : Chain} (h : SystemAccountStorage.isV1 c) :
    SystemAccountStorage.isExists c := by
  intro hnone
  rw [h] at hnone
  cases hnone

theorem isExists_of_isV3 {c : Chain} (h : SystemAccountStorage.isV3 c) :
    SystemAccountStorage.isExists c := by
  intro hnone
  rw [h] at hnone
  cases hnone

theorem P000_getBalances_eq (c : Chain) (ids : List RawId)
    (hex : SystemAccountStorage.isExists c) :
    P000.getBalances c ids = some (ids.map (balanceOf c)) := by
  unfold P000.getBalances P000.getSystemAccountBalances queryStorageSystemAccount
  rw [if_neg (not_not_intro hex), List.map_map]
  rfl

theorem P000_getBalances_none (c : Chain) (ids : List RawId)
    (hno : ¬ SystemAccountStorage.isExists c) :
    P000.getBalances c ids = none := by
  unfold P000.getBalances P000.getSystemAccountBalances
  rw [if_pos hno]

theorem P000_saveAccounts_of_not_exists (c : Chain) (db : DB) (b : BlockHeader)
    (ids : List RawId) (hno : ¬ SystemAccountStorage.isExists c) :
    P000.saveAccounts c db b ids = db := by
  unfold P000.saveAccounts
  rw [P000_getBalances_none c ids hno]

theorem P000_saveAccounts_accounts (c : Chain) (db : DB) (b : BlockHeader)
    (ids : List RawId) (hnd : ids.Nodup) (hex : SystemAccountStorage.isExists c) :
    (P000.saveAccounts c db b ids).accounts =
      removeRows
        (saveRows db.accounts (ids.filterMap (upsertRow (balanceOf c) b.height)))
        (ids.filterMap (deleteRow (balanceOf c))) := by
  unfold P000.saveAccounts
  rw [P000_getBalances_eq c ids hex]
  simp only [classifyAccounts_spec b.height (balanceOf c) ids hnd, snd_filterMap_pair]

theorem P000_saveAccounts_chainStates (c : Chain) (db : DB) (b : BlockHeader)
    (ids : List RawId) :
    (P000.saveAccounts c db b ids).chainStates = db.chainStates ∧
    (P000.saveAccounts c db b ids).currentChainState = db.currentChainState := by
  unfold P000.saveAccounts
  cases P000.getBalances c ids <;> exact ⟨rfl, rfl⟩

theorem P001_getBalances_isV1 (c : Chain) (ids : List RawId)
    (hv1 : SystemAccountStorage.isV1 c) :
    P001.getBalances c ids = .ok (some (ids.map (balanceOf c))) := by
  unfold P001.getBalances P001.getSystemAccountBalances
  rw [if_neg (not_not_intro (isExists_of_isV1 hv1)), if_pos hv1]
  unfold SystemAccountStorage.getManyAsV1
  rw [if_pos hv1]
  show Except.ok (some ((queryStorageSystemAccount c ids).map _)) = _
  unfold queryStorageSystemAccount
  rw [List.map_map]
  rfl

theorem isV1_isV3_exclusive (c : Chain) :
    ¬ (SystemAccountStorage.isV1 c ∧ SystemAccountStorage.isV3 c) := by
  rintro ⟨h1, h3⟩
  have h13 : (some systemAccountV1TypeHash : Option String) =
      some systemAccountV3TypeHash := h1.symm.trans h3
  have : systemAccountV1TypeHash = systemAccountV3TypeHash := by
    injection h13
  exact absurd this (by decide)

theorem P001_getBalances_isV3 (c : Chain) (ids : List RawId)
    (hv3 : SystemAccountStorage.isV3 c) :
    P001.getBalances c ids = .ok (some (ids.map (balanceOf c))) := by
  have hv1 : ¬ SystemAccountStorage.isV1 c := fun h => isV1_isV3_exclusive c ⟨h, hv3⟩
  unfold P001.getBalances P001.getSystemAccountBalances
  rw [if_neg (not_not_intro (isExists_of_isV3 hv3)), if_neg hv1]
  unfold SystemAccountStorage.getManyAsV3
  rw [if_pos hv3]
  show Except.ok (some ((queryStorageSystemAccount c ids).map _)) = _
  unfold queryStorageSystemAccount
  rw [List.map_map]
  rfl

theorem P001_getBalances_not_exists (c : Chain) (ids : List RawId)
    (hno : ¬ SystemAccountStorage.isExists c) :
    P001.getBalances c ids = .ok none := by
  unfold P001.getBalances P001.getSystemAccountBalances
  rw [if_pos hno]

theorem P001_getBalances_unknown (c : Chain) (ids : List RawId)
    (hex : SystemAccountStorage.isExists c)
    (hv1 : ¬ SystemAccountStorage.isV1 c) (hv3 : ¬ SystemAccountStorage.isV3 c) :
    P001.getBalances c ids = .error .assertFailed := by
  unfold P001.getBalances P001.getSystemAccountBalances
  rw [if_neg (not_not_intro hex), if_neg hv1]
  unfold SystemAccountStorage.getManyAsV3
  rw [if_neg hv3]
  rfl

theorem P001_saveAccounts_ok (c : Chain) (db : DB) (b : BlockHeader)
    (ids : List RawId) (db' : DB)
    (h : P001.saveAccounts c db b ids = .ok db') :
    db' = P000.saveAccounts c db b ids := by
  by_cases hex : SystemAccountStorage.isExists c
  · by_cases hv1 : SystemAccountStorage.isV1 c
    · unfold P001.saveAccounts at h
      rw [P001_getBalances_isV1 c ids hv1] at h
      unfold P000.saveAccounts
      rw [P000_getBalances_eq c ids hex]
      have h2 : (Except.ok
          (let maps := classifyAccounts b.height ids (ids.map (balanceOf c)) [] []
           let saved := saveRows db.accounts (maps.1.map Prod.snd)
           ({ db with accounts := removeRows saved (maps.2.map Prod.snd) } : DB)) :
          Except PipelineError DB) = .ok db' := h
      exact (Except.ok.inj h2).symm
    · by_cases hv3 : SystemAccountStorage.isV3 c
      · unfold P001.saveAccounts at h
        rw [P001_getBalances_isV3 c ids hv3] at h
        unfold P000.saveAccounts
        rw [P000_getBalances_eq c ids hex]
        have h2 : (Except.ok
            (let maps := classifyAccounts b.height ids (ids.map (balanceOf c)) [] []
             let saved := saveRows db.accounts (maps.1.map Prod.snd)
             ({ db with accounts := removeRows saved (maps.2.map Prod.snd) } : DB)) :
            Except PipelineError DB) = .ok db' := h
        exact (Except.ok.inj h2).symm
      · unfold P001.saveAccounts at h
        rw [P001_getBalances_unknown c ids hex hv1 hv3] at h
        cases h
  · unfold P001.saveAccounts at h
    rw [P001_getBalances_not_exists c ids hex] at h
    rw [P000_saveAccounts_of_not_exists c db b ids hex]
    exact (Except.ok.inj h).symm

theorem P000_saveAccounts_lookup_mem (c : Chain) (db : DB) (b : BlockHeader)
    (ids : List RawId) (hnd : ids.Nodup) (hex : SystemAccountStorage.isExists c)
    {a : RawId} (ha : a ∈ ids) :
    lookupAccount (P000.saveAccounts c db b ids).accounts (encodeId a) =
      match balanceOf c a with
      | none => lookupAccount db.accounts (encodeId a)
      | some bal =>
          if 0 < bal.free + bal.reserved then
            some { id := encodeId a, free := bal.free, reserved := bal.reserved,
                   total := bal.free + bal.reserved, updatedAt := some b.height }
          else none := by
  rw [P000_saveAccounts_accounts c db b ids hnd hex]
  rw [lookupAccount_removeRows]
  cases hbal : balanceOf c a with
  | none =>
      have hno : ¬ ∃ d ∈ ids.filterMap (deleteRow (balanceOf c)), d.id = encodeId a := by
        rw [exists_filterMap_delete]
        rintro ⟨a', ha', hae, hsome⟩
        have haa : a' = a := by simpa [encodeId] using hae
        rw [haa, deleteRow_eq_none hbal] at hsome
        cases hsome
      rw [if_neg hno]
      rw [lookupAccount_saveRows _ _ _ (nodup_ids_filterMap_upsert _ _ ids hnd)]
      rw [find?_filterMap_upsert _ _ ids hnd a ha, upsertRow_eq_none hbal]
  | some bal =>
      by_cases htot : 0 < bal.free + bal.reserved
      · have hno : ¬ ∃ d ∈ ids.filterMap (deleteRow (balanceOf c)), d.id = encodeId a := by
          rw [exists_filterMap_delete]
          rintro ⟨a', ha', hae, hsome⟩
          have haa : a' = a := by simpa [encodeId] using hae
          rw [haa, deleteRow_eq_pos hbal htot] at hsome
          cases hsome
        rw [if_neg hno]
        rw [lookupAccount_saveRows _ _ _ (nodup_ids_filterMap_upsert _ _ ids hnd)]
        rw [find?_filterMap_upsert _ _ ids hnd a ha, upsertRow_eq_pos hbal htot]
        exact (if_pos htot).symm
      · have hyes : ∃ d ∈ ids.filterMap (deleteRow (balanceOf c)), d.id = encodeId a := by
          rw [exists_filterMap_delete]
          exact ⟨a, ha, rfl, by rw [deleteRow_eq_neg hbal htot]; rfl⟩
        rw [if_pos hyes]
        exact (if_neg htot).symm

theorem P000_saveAccounts_lookup_frame (c : Chain) (db : DB) (b : BlockHeader)
    (ids : List RawId) (hnd : ids.Nodup) {k : AccountId}
    (hk : ∀ a ∈ ids, encodeId a ≠ k) :
    lookupAccount (P000.saveAccounts c db b ids).accounts k =
      lookupAccount db.accounts k := by
  by_cases hex : SystemAccountStorage.isExists c
  · rw [P000_saveAccounts_accounts c db b ids hnd hex, lookupAccount_removeRows]
    have hno : ¬ ∃ d ∈ ids.filterMap (deleteRow (balanceOf c)), d.id = k := by
      rw [exists_filterMap_delete]
      rintro ⟨a', ha', hae, _⟩
      exact hk a' ha' hae
    rw [if_neg hno]
    rw [lookupAccount_saveRows _ _ _ (nodup_ids_filterMap_upsert _ _ ids hnd)]
    have hfind : (ids.filterMap (upsertRow (balanceOf c) b.height)).find?
        (fun r => r.id = k) = none := by
      rw [List.find?_eq_none]
      intro r hr hrk
      obtain ⟨a', ha', hr'⟩ := List.mem_filterMap.1 hr
      exact hk a' ha' (by rw [← upsertRow_id hr']; simpa using hrk)
    rw [hfind]
  · rw [P000_saveAccounts_of_not_exists c db b ids hex]

theorem mem_saveRow {rows : List Account} {a r : Account} (h : r ∈ saveRow rows a) :
    r = a ∨ r ∈ rows := by
  induction rows with
  | nil => simpa [saveRow] using h
  | cons x rows ih =>
      unfold saveRow at h
      by_cases hx : x.id = a.id
      · rw [if_pos hx] at h
        rcases List.mem_cons.1 h with h | h
        · exact Or.inl h
        · exact Or.inr (List.mem_cons_of_mem _ h)
      · rw [if_neg hx] at h
        rcases List.mem_cons.1 h with h | h
        · exact Or.inr (h ▸ List.mem_cons_self _ _)
        · rcases ih h with h | h
          · exact Or.inl h
          · exact Or.inr (List.mem_cons_of_mem _ h)

theorem mem_saveRows {rows toSave : List Account} {r : Account}
    (h : r ∈ saveRows rows toSave) : r ∈ toSave ∨ r ∈ rows := by
  induction toSave generalizing rows with
  | nil => exact Or.inr h
  | cons a as ih =>
      rcases @ih (saveRow rows a) h with h' | h'
      · exact Or.inl (List.mem_cons_of_mem _ h')
      · rcases mem_saveRow h' with h'' | h''
        · exact Or.inl (h'' ▸ List.mem_cons_self _ _)
        · exact Or.inr h''

theorem mem_removeRows {rows toRemove : List Account} {r : Account}
    (h : r ∈ removeRows rows toRemove) : r ∈ rows :=
  List.mem_of_mem_filter h

theorem mem_filterMap_upsert_wellformed {g : RawId → Option Balance} {height : Nat}
    {ids : List RawId} {r : Account}
    (h : r ∈ ids.filterMap (upsertRow g height)) :
    r.total = r.free + r.reserved ∧ 0 < r.total := by
  obtain ⟨a, _, ha⟩ := List.mem_filterMap.1 h
  exact upsertRow_wellformed ha

theorem upsertRow_isSome {g : RawId → Option Balance} {height : Nat} {a : RawId} :
    (upsertRow g height a).isSome = true ↔
      ∃ bal, g a = some bal ∧ 0 < bal.free + bal.reserved := by
  constructor
  · intro hs
    cases hga : g a with
    | none => rw [upsertRow_eq_none hga] at hs; cases hs
    | some bal =>
        by_cases htot : 0 < bal.free + bal.reserved
        · exact ⟨bal, rfl, htot⟩
        · rw [upsertRow_eq_neg hga htot] at hs; cases hs
  · rintro ⟨bal, hga, htot⟩
    rw [upsertRow_eq_pos hga htot]
    rfl

theorem deleteRow_isSome {g : RawId → Option Balance} {a : RawId} :
    (deleteRow g a).isSome = true ↔
      ∃ bal, g a = some bal ∧ ¬ 0 < bal.free + bal.reserved := by
  constructor
  · intro hs
    cases hga : g a with
    | none => rw [deleteRow_eq_none hga] at hs; cases hs
    | some bal =>
        by_cases htot : 0 < bal.free + bal.reserved
        · rw [deleteRow_eq_pos hga htot] at hs; cases hs
        · exact ⟨bal, rfl, htot⟩
  · rintro ⟨bal, hga, htot⟩
    rw [deleteRow_eq_neg hga htot]
    rfl

theorem keys_filterMap_pair (f : RawId → Option Account) (ids : List RawId)
    (x : AccountId) :
    (x ∈ (ids.filterMap fun a => (f a).map fun r => (encodeId a, r)).map Prod.fst) ↔
      ∃ a ∈ ids, encodeId a = x ∧ (f a).isSome = true := by
  induction ids with
  | nil => simp
  | cons a ids ih =>
      cases hf : f a with
      | none =>
          rw [List.filterMap_cons_none (by rw [hf]; rfl)]
          rw [ih]
          constructor
          · rintro ⟨a', ha', rest⟩
            exact ⟨a', List.mem_cons_of_mem _ ha', rest⟩
          · rintro ⟨a', ha', hax, hsome⟩
            rcases List.mem_cons.1 ha' with rfl | ha''
            · rw [hf] at hsome
              cases hsome
            · exact ⟨a', ha'', hax, hsome⟩
      | some r =>
          rw [List.filterMap_cons_some (by rw [hf]; rfl)]
          rw [List.map_cons]
          constructor
          · intro hx
            rcases List.mem_cons.1 hx with hx | hx
            · exact ⟨a, List.mem_cons_self _ _, hx.symm, by rw [hf]; rfl⟩
            · obtain ⟨a', ha', rest⟩ := ih.1 hx
              exact ⟨a', List.mem_cons_of_mem _ ha', rest⟩
          · rintro ⟨a', ha', hax, hsome⟩
            rcases List.mem_cons.1 ha' with rfl | ha''
            · exact List.mem_cons.2 (Or.inl hax.symm)
            · exact List.mem_cons.2 (Or.inr (ih.2 ⟨a', ha'', hax, hsome⟩))

/-- The accumulation loop the drivers run over a window's items: fold each item
through `processBalancesEventItem` starting from the current accumulator set. -/
def accumulateTouched (items : List EventItem) (acc : List HexId) :
    Except PipelineError (List HexId) :=
  items.foldlM (fun acc item => processBalancesEventItem item acc) acc

set_option maxHeartbeats 2000000 in
theorem processBalancesEventItem_ok (item : EventItem) (acc acc' : List HexId)
    (h : processBalancesEventItem item acc = .ok acc') :
    ∃ l : List HexId, acc' = l.foldl setAdd acc ∧
      ∀ acc₂ : List HexId, processBalancesEventItem item acc₂ =
        .ok (l.foldl setAdd acc₂) := by
  unfold processBalancesEventItem at h ⊢
  split_ifs at h ⊢
  · cases hx : getBalanceSetAccount item.event with
    | error e => rw [hx] at h; cases h
    | ok account =>
        rw [hx] at h
        injection h with h
        exact ⟨[account], h.symm, fun acc₂ => rfl⟩
  · cases hx : getEndowedAccount item.event with
    | error e => rw [hx] at h; cases h
    | ok account =>
        rw [hx] at h
        injection h with h
        exact ⟨[account], h.symm, fun acc₂ => rfl⟩
  · cases hx : getDepositAccount item.event with
    | error e => rw [hx] at h; cases h
    | ok account =>
        rw [hx] at h
        injection h with h
        exact ⟨[account], h.symm, fun acc₂ => rfl⟩
  · cases hx : getReservedAccount item.event with
    | error e => rw [hx] at h; cases h
    | ok account =>
        rw [hx] at h
        injection h with h
        exact ⟨[account], h.symm, fun acc₂ => rfl⟩
  · cases hx : getUnreservedAccount item.event with
    | error e => rw [hx] at h; cases h
    | ok account =>
        rw [hx] at h
        injection h with h
        exact ⟨[account], h.symm, fun acc₂ => rfl⟩
  · cases hx : getWithdrawAccount item.event with
    | error e => rw [hx] at h; cases h
    | ok account =>
        rw [hx] at h
        injection h with h
        exact ⟨[account], h.symm, fun acc₂ => rfl⟩
  · cases hx : getSlashedAccount item.event with
    | error e => rw [hx] at h; cases h
    | ok account =>
        rw [hx] at h
        injection h with h
        exact ⟨[account], h.symm, fun acc₂ => rfl⟩
  · cases hx : getTransferAccounts item.event with
    | error e => rw [hx] at h; cases h
    | ok accounts =>
        rw [hx] at h
        injection h with h
        exact ⟨[accounts.1, accounts.2], h.symm, fun acc₂ => rfl⟩
  · cases hx : getReserveRepatriatedAccounts item.event with
    | error e => rw [hx] at h; cases h
    | ok accounts =>
        rw [hx] at h
        injection h with h
        exact ⟨[accounts.1, accounts.2], h.symm, fun acc₂ => rfl⟩
  · injection h with h
    exact ⟨[], h.symm, fun acc₂ => rfl⟩

theorem accumulateTouched_ok (items : List EventItem) :
    ∀ (acc s : List HexId), accumulateTouched items acc = .ok s →
      ∃ L : List HexId, s = L.foldl setAdd acc ∧
        ∀ acc₂, accumulateTouched items acc₂ = .ok (L.foldl setAdd acc₂) := by
  induction items with
  | nil =>
      intro acc s h
      exact ⟨[], (Except.ok.inj h).symm, fun acc₂ => rfl⟩
  | cons it items ih =>
      intro acc s h
      have hcons : accumulateTouched (it :: items) acc =
          (processBalancesEventItem it acc >>= fun a => accumulateTouched items a) :=
        rfl
      rw [hcons] at h
      cases hit : processBalancesEventItem it acc with
      | error e =>
          rw [hit] at h
          have h' : (Except.error e : Except PipelineError (List HexId)) = .ok s := h
          cases h'
      | ok acc1 =>
          rw [hit] at h
          have h' : accumulateTouched items acc1 = .ok s := h
          obtain ⟨l, hl, hstep⟩ := processBalancesEventItem_ok it acc acc1 hit
          obtain ⟨L, hL, hall⟩ := ih acc1 s h'
          refine ⟨l ++ L, ?_, ?_⟩
          · rw [List.foldl_append, ← hl, hL]
          · intro acc₂
            have hcons₂ : accumulateTouched (it :: items) acc₂ =
                (processBalancesEventItem it acc₂ >>= fun a => accumulateTouched items a) :=
              rfl
            rw [hcons₂, hstep acc₂]
            have hred : ((Except.ok (l.foldl setAdd acc₂) : Except PipelineError (List HexId)) >>=
                fun a => accumulateTouched items a) =
                accumulateTouched items (l.foldl setAdd acc₂) := rfl
            rw [hred, hall (l.foldl setAdd acc₂), List.foldl_append]

theorem accumulateTouched_nodup (items : List EventItem) (acc s : List HexId)
    (hacc : acc.Nodup) (h : accumulateTouched items acc = .ok s) : s.Nodup := by
  obtain ⟨L, hL, _⟩ := accumulateTouched_ok items acc s h
  rw [hL]
  exact foldl_setAdd_nodup L hacc

theorem accumulateTouched_mem (items : List EventItem) :
    ∀ (acc s : List HexId), accumulateTouched items acc = .ok s → ∀ x : HexId,
      (x ∈ s ↔ x ∈ acc ∨ ∃ it ∈ items, ∃ base,
        processBalancesEventItem it [] = .ok base ∧ x ∈ base) := by
  induction items with
  | nil =>
      intro acc s h x
      rw [← Except.ok.inj h]
      simp
  | cons it items ih =>
      intro acc s h x
      have hcons : accumulateTouched (it :: items) acc =
          (processBalancesEventItem it acc >>= fun a => accumulateTouched items a) :=
        rfl
      rw [hcons] at h
      cases hit : processBalancesEventItem it acc with
      | error e =>
          rw [hit] at h
          have h' : (Except.error e : Except PipelineError (List HexId)) = .ok s := h
          cases h'
      | ok acc1 =>
          rw [hit] at h
          have h' : accumulateTouched items acc1 = .ok s := h
          obtain ⟨l, hl, hstep⟩ := processBalancesEventItem_ok it acc acc1 hit
          rw [ih acc1 s h' x]
          constructor
          · rintro (hx | hx)
            · rw [hl] at hx
              rcases (mem_foldl_setAdd l acc x).1 hx with hx | hx
              · exact Or.inl hx
              · exact Or.inr ⟨it, List.mem_cons_self _ _, l.foldl setAdd [],
                  hstep [], (mem_foldl_setAdd l [] x).2 (Or.inr hx)⟩
            · obtain ⟨it', hit', rest⟩ := hx
              exact Or.inr ⟨it', List.mem_cons_of_mem _ hit', rest⟩
          · rintro (hx | ⟨it', hit', base, hbase, hxbase⟩)
            · refine Or.inl ?_
              rw [hl]
              exact (mem_foldl_setAdd l acc x).2 (Or.inl hx)
            · rcases List.mem_cons.1 hit' with rfl | hit''
              · have hb : base = l.foldl setAdd [] := by
                  have h0 := hstep ([] : List HexId)
                  rw [hbase] at h0
                  exact Except.ok.inj h0
                have hxl : x ∈ l := by
                  rw [hb] at hxbase
                  rcases (mem_foldl_setAdd l [] x).1 hxbase with hx0 | hx0
                  · exact absurd hx0 (List.not_mem_nil x)
                  · exact hx0
                refine Or.inl ?_
                rw [hl]
                exact (mem_foldl_setAdd l acc x).2 (Or.inr hxl)
              · exact Or.inr ⟨it', hit'', base, hbase, hxbase⟩

theorem accumulateTouched_dup (items : List EventItem) (it : EventItem)
    (s t : List HexId) (hs : accumulateTouched items [] = .ok s)
    (hstep : processBalancesEventItem it s = .ok t) :
    accumulateTouched (items ++ [it]) [] = .ok t ∧
    accumulateTouched (items ++ [it, it]) [] = .ok t := by
  obtain ⟨l, hl, hall⟩ := processBalancesEventItem_ok it s t hstep
  have happ : ∀ tail : List EventItem, accumulateTouched (items ++ tail) [] =
      (accumulateTouched items [] >>= fun a => accumulateTouched tail a) := by
    intro tail
    unfold accumulateTouched
    rw [List.foldlM_append]
  have hsub : l.foldl setAdd t = t := by
    refine foldl_setAdd_of_subset l fun x hx => ?_
    rw [hl]
    exact (mem_foldl_setAdd l s x).2 (Or.inr hx)
  constructor
  · rw [happ [it], hs]
    have h1 : ((Except.ok s : Except PipelineError (List HexId)) >>=
        fun a => accumulateTouched [it] a) = accumulateTouched [it] s := rfl
    rw [h1]
    have h2 : accumulateTouched [it] s =
        (processBalancesEventItem it s >>= fun a => accumulateTouched [] a) := rfl
    rw [h2, hstep]
    rfl
  · rw [happ [it, it], hs]
    have h1 : ((Except.ok s : Except PipelineError (List HexId)) >>=
        fun a => accumulateTouched [it, it] a) = accumulateTouched [it, it] s := rfl
    rw [h1]
    have h2 : accumulateTouched [it, it] s =
        (processBalancesEventItem it s >>= fun a => accumulateTouched [it] a) := rfl
    rw [h2, hstep]
    have h3 : ((Except.ok t : Except PipelineError (List HexId)) >>=
        fun a => accumulateTouched [it] a) = accumulateTouched [it] t := rfl
    rw [h3]
    have h4 : accumulateTouched [it] t =
        (processBalancesEventItem it t >>= fun a => accumulateTouched [] a) := rfl
    rw [h4, hall t, hsub]
    rfl

theorem saveAccounts_lookup_congr (c : Chain) (db : DB) (b : BlockHeader)
    (s₁ s₂ : List RawId) (h₁ : s₁.Nodup) (h₂ : s₂.Nodup)
    (hmem : ∀ x, x ∈ s₁ ↔ x ∈ s₂) (k : AccountId) :
    lookupAccount (P000.saveAccounts c db b s₁).accounts k =
      lookupAccount (P000.saveAccounts c db b s₂).accounts k := by
  by_cases hex : SystemAccountStorage.isExists c
  · by_cases hk : k ∈ s₁
    · have hk₂ : k ∈ s₂ := (hmem k).1 hk
      have e₁ := P000_saveAccounts_lookup_mem c db b s₁ h₁ hex hk
      have e₂ := P000_saveAccounts_lookup_mem c db b s₂ h₂ hex hk₂
      rw [encodeId_eq] at e₁ e₂
      rw [e₁, e₂]
    · have hk₂ : k ∉ s₂ := fun hc => hk ((hmem k).2 hc)
      have e₁ := @P000_saveAccounts_lookup_frame c db b s₁ h₁ k
        (fun a ha hc => hk (by rw [← encodeId_eq a, hc] at ha; exact ha))
      have e₂ := @P000_saveAccounts_lookup_frame c db b s₂ h₂ k
        (fun a ha hc => hk₂ (by rw [← encodeId_eq a, hc] at ha; exact ha))
      rw [e₁, e₂]
  · rw [P000_saveAccounts_of_not_exists c db b s₁ hex,
      P000_saveAccounts_of_not_exists c db b s₂ hex]

theorem decodeHex_map (l : List HexId) : l.map decodeHex = l := by
  induction l with
  | nil => rfl
  | cons a l ih =>
      rw [List.map_cons, ih]
      rfl

theorem getTotalIssuance_not_exists (c : Chain)
    (hno : ¬ BalancesTotalIssuanceStorage.isExists c) :
    getTotalIssuance c = .ok none := by
  unfold getTotalIssuance
  rw [if_pos hno]

theorem getTotalIssuance_isV1 (c : Chain)
    (hv1 : BalancesTotalIssuanceStorage.isV1 c) :
    getTotalIssuance c = .ok (some c.totalIssuance) := by
  have hex : BalancesTotalIssuanceStorage.isExists c := by
    intro hnone
    rw [hv1] at hnone
    cases hnone
  unfold getTotalIssuance
  rw [if_neg (not_not_intro hex), if_pos hv1]
  unfold BalancesTotalIssuanceStorage.getAsV1
  rw [if_pos hv1]
  rfl

theorem getTotalIssuance_unknown (c : Chain)
    (hex : BalancesTotalIssuanceStorage.isExists c)
    (hv1 : ¬ BalancesTotalIssuanceStorage.isV1 c) :
    getTotalIssuance c = .error (.unknownVersion "BalancesTotalIssuanceStorage") := by
  unfold getTotalIssuance
  rw [if_neg (not_not_intro hex), if_neg hv1]

theorem getChainState_ok (c : Chain) (db : DB) (block : BlockHeader)
    (st : ChainState) (h : getChainState c db block = .ok st) :
    ∃ issuance : Option Nat, getTotalIssuance c = .ok issuance ∧
      st = { id := block.id, timestamp := block.timestamp,
             blockNumber := block.height, totalIssuance := issuance.getD 0,
             tokenHolders := db.accounts.length } := by
  unfold getChainState at h
  cases hti : getTotalIssuance c with
  | error e =>
      rw [hti] at h
      have h' : (Except.error e : Except PipelineError ChainState) = .ok st := h
      cases h'
  | ok issuance =>
      rw [hti] at h
      have h' : (Except.ok
          ({ id := block.id, timestamp := block.timestamp,
             blockNumber := block.height, totalIssuance := issuance.getD 0,
             tokenHolders := db.accounts.length } : ChainState) :
          Except PipelineError ChainState) = .ok st := h
      exact ⟨issuance, rfl, (Except.ok.inj h').symm⟩

theorem saveRegularChainState_ok (c : Chain) (db : DB) (block : BlockHeader)
    (db2 : DB) (h : saveRegularChainState c db block = .ok db2) :
    ∃ st : ChainState, getChainState c db block = .ok st ∧
      db2 = { db with chainStates := db.chainStates ++ [st] } := by
  unfold saveRegularChainState at h
  cases hcs : getChainState c db block with
  | error e =>
      rw [hcs] at h
      have h' : (Except.error e : Except PipelineError DB) = .ok db2 := h
      cases h'
  | ok st =>
      rw [hcs] at h
      have h' : (Except.ok
          ({ db with chainStates := db.chainStates ++ [st] } : DB) :
          Except PipelineError DB) = .ok db2 := h
      exact ⟨st, rfl, (Except.ok.inj h').symm⟩

theorem saveCurrentChainState_ok (c : Chain) (db : DB) (block : BlockHeader)
    (db2 : DB) (h : saveCurrentChainState c db block = .ok db2) :
    ∃ st : ChainState, getChainState c db block = .ok st ∧
      db2 = { db with currentChainState := some st } := by
  unfold saveCurrentChainState at h
  cases hcs : getChainState c db block with
  | error e =>
      rw [hcs] at h
      have h' : (Except.error e : Except PipelineError DB) = .ok db2 := h
      cases h'
  | ok st =>
      rw [hcs] at h
      have h' : (Except.ok
          ({ db with currentChainState := some st } : DB) :
          Except PipelineError DB) = .ok db2 := h
      exact ⟨st, rfl, (Except.ok.inj h').symm⟩

theorem getChainState_tokenHolders (c : Chain) (db : DB) (block : BlockHeader)
    (st : ChainState) (h : getChainState c db block = .ok st) :
    st.tokenHolders = db.accounts.length := by
  obtain ⟨issuance, _, hst⟩ := getChainState_ok c db block st h
  rw [hst]

theorem maxTimestampRow_some (b0 cs : ChainState) :
    P000.maxTimestampRow (some b0) cs =
      if b0.timestamp < cs.timestamp then some cs else some b0 := rfl

theorem foldl_maxTimestampRow_some (l : List ChainState) :
    ∀ (acc : Option ChainState) (best : ChainState),
      l.foldl P000.maxTimestampRow acc = some best →
      (best ∈ l ∨ acc = some best) ∧
      (∀ cs ∈ l, cs.timestamp ≤ best.timestamp) ∧
      (∀ b0, acc = some b0 → b0.timestamp ≤ best.timestamp) := by
  induction l with
  | nil =>
      intro acc best h
      refine ⟨Or.inr h, by simp, ?_⟩
      intro b0 hb0
      rw [hb0] at h
      exact le_of_eq (congrArg ChainState.timestamp (Option.some.inj h))
  | cons cs l ih =>
      intro acc best h
      rw [List.foldl_cons] at h
      obtain ⟨hmem, hle, hacc⟩ := ih (P000.maxTimestampRow acc cs) best h
      have hcs_le : cs.timestamp ≤ best.timestamp := by
        cases acc with
        | none => exact hacc cs rfl
        | some b0 =>
            by_cases hlt : b0.timestamp < cs.timestamp
            · exact hacc cs (by rw [maxTimestampRow_some, if_pos hlt])
            · exact le_trans (le_of_not_lt hlt)
                (hacc b0 (by rw [maxTimestampRow_some, if_neg hlt]))
      refine ⟨?_, ?_, ?_⟩
      · rcases hmem with hmem | hmem
        · exact Or.inl (List.mem_cons_of_mem _ hmem)
        · cases acc with
          | none =>
              have hcb : cs = best := Option.some.inj hmem
              refine Or.inl ?_
              rw [← hcb]
              exact List.mem_cons_self _ _
          | some b0 =>
              by_cases hlt : b0.timestamp < cs.timestamp
              · have hmem' : (some cs : Option ChainState) = some best := by
                  rw [← hmem]
                  rw [maxTimestampRow_some, if_pos hlt]
                refine Or.inl ?_
                rw [← Option.some.inj hmem']
                exact List.mem_cons_self _ _
              · have hmem' : (some b0 : Option ChainState) = some best := by
                  rw [← hmem]
                  rw [maxTimestampRow_some, if_neg hlt]
                exact Or.inr (by rw [Option.some.inj hmem'])
      · intro cs' hcs'
        rcases List.mem_cons.1 hcs' with rfl | hcs'
        · exact hcs_le
        · exact hle cs' hcs'
      · intro b0 hb0
        subst hb0
        by_cases hlt : b0.timestamp < cs.timestamp
        · exact le_trans (le_of_lt hlt) hcs_le
        · exact hacc b0 (by rw [maxTimestampRow_some, if_neg hlt])

theorem foldl_maxTimestampRow_eq_none (l : List ChainState) :
    ∀ acc : Option ChainState,
      l.foldl P000.maxTimestampRow acc = none ↔ acc = none ∧ l = [] := by
  induction l with
  | nil =>
      intro acc
      simp
  | cons cs l ih =>
      intro acc
      rw [List.foldl_cons]
      constructor
      · intro h
        exfalso
        have hnone := ((ih (P000.maxTimestampRow acc cs)).1 h).1
        cases acc with
        | none =>
            have h0 : (some cs : Option ChainState) = none := hnone
            cases h0
        | some b0 =>
            by_cases hlt : b0.timestamp < cs.timestamp
            · have h0 : (some cs : Option ChainState) = none := by
                rw [← hnone, maxTimestampRow_some, if_pos hlt]
              cases h0
            · have h0 : (some b0 : Option ChainState) = none := by
                rw [← hnone, maxTimestampRow_some, if_neg hlt]
              cases h0
      · rintro ⟨_, h⟩
        cases h

theorem getLastChainState_none (db : DB) :
    P000.getLastChainState db = none ↔ db.chainStates = [] := by
  unfold P000.getLastChainState
  rw [foldl_maxTimestampRow_eq_none]
  simp

theorem getLastChainState_max (db : DB) (best : ChainState)
    (h : P000.getLastChainState db = some best) :
    best ∈ db.chainStates ∧ ∀ cs ∈ db.chainStates, cs.timestamp ≤ best.timestamp := by
  unfold P000.getLastChainState at h
  obtain ⟨hmem, hle, _⟩ := foldl_maxTimestampRow_some db.chainStates none best h
  rcases hmem with hmem | hmem
  · exact ⟨hmem, hle⟩
  · cases hmem

/-- A concrete chain view with the known V1 fingerprints: account 7 holds
free 5 / reserved 2, account 8 holds a zero balance, everything else is
absent; total issuance 1000. -/
def chainV1 : Chain :=
  { systemAccountTypeHash := some systemAccountV1TypeHash
    totalIssuanceTypeHash := some totalIssuanceV1TypeHash
    systemAccount := fun a =>
      if a = 7 then some ⟨0, 0, 0, ⟨5, 2, 0, 0⟩⟩
      else if a = 8 then some ⟨0, 0, 0, ⟨0, 0, 0, 0⟩⟩
      else none
    totalIssuance := 1000 }

/-- A concrete chain view whose fingerprints match no known decoder version. -/
def chainUnknown : Chain :=
  { systemAccountTypeHash := some "00"
    totalIssuanceTypeHash := some "00"
    systemAccount := fun _ => none
    totalIssuance := 0 }

/-- A concrete chain view where neither storage item exists. -/
def chainAbsent : Chain :=
  { systemAccountTypeHash := none
    totalIssuanceTypeHash := none
    systemAccount := fun _ => none
    totalIssuance := 0 }

/-- The empty persisted store. -/
def dbEmpty : DB := ⟨[], [], none⟩

/-- A concrete reference block. -/
def blockA : BlockHeader := ⟨"b1", 100, "h1", 50000⟩

/-- A concrete block whose timestamp is exactly one save period after zero. -/
def blockTrig : BlockHeader := ⟨"b2", 120, "h2", 43200000⟩

/-- A concrete Balances.Endowed event item touching account 7. -/
def endowedItem : EventItem := ⟨"event", "Balances.Endowed", ⟨.v1, 7, 0⟩⟩

/-- A concrete Balances.Transfer event item touching accounts 7 and 8. -/
def transferItem : EventItem := ⟨"event", "Balances.Transfer", ⟨.v1, 7, 8⟩⟩

/-- C8: the chain-state record computed for a block has its id derived from the
block, the block's timestamp and height, total issuance equal to the decoded
storage value (or 0 when the issuance storage item does not exist at this
block's version), and token-holder count equal to the number of persisted
Account rows at the time it is computed. -/
theorem c8_chain_state_fields (c : Chain) (db : DB) (block : BlockHeader)
    (st : ChainState) (h : getChainState c db block = .ok st) :
    st.id = block.id ∧ st.timestamp = block.timestamp ∧
    st.blockNumber = block.height ∧ st.tokenHolders = db.accounts.length ∧
    (¬ BalancesTotalIssuanceStorage.isExists c → st.totalIssuance = 0) ∧
    (BalancesTotalIssuanceStorage.isV1 c → st.totalIssuance = c.totalIssuance) := by
  obtain ⟨issuance, hti, hst⟩ := getChainState_ok c db block st h
  subst hst
  refine ⟨rfl, rfl, rfl, rfl, ?_, ?_⟩
  · intro hno
    rw [getTotalIssuance_not_exists c hno] at hti
    have : (none : Option Nat) = issuance := Except.ok.inj hti
    rw [← this]
    rfl
  · intro hv1
    rw [getTotalIssuance_isV1 c hv1] at hti
    have : (some c.totalIssuance : Option Nat) = issuance := Except.ok.inj hti
    rw [← this]
    rfl

/-- C8 witness: the chain state computed at the concrete V1 chain carries the
block's id, timestamp and height, the decoded issuance and the account count. -/
theorem c8_chain_state_witness :
    (⟨"b1", 50000, 100, 1000, 0⟩ : ChainState).id = blockA.id ∧
    (⟨"b1", 50000, 100, 1000, 0⟩ : ChainState).timestamp = blockA.timestamp ∧
    (⟨"b1", 50000, 100, 1000, 0⟩ : ChainState).blockNumber = blockA.height ∧
    (⟨"b1", 50000, 100, 1000, 0⟩ : ChainState).tokenHolders = dbEmpty.accounts.length ∧
    (¬ BalancesTotalIssuanceStorage.isExists chainV1 →
      (⟨"b1", 50000, 100, 1000, 0⟩ : ChainState).totalIssuance = 0) ∧
    (BalancesTotalIssuanceStorage.isV1 chainV1 →
      (⟨"b1", 50000, 100, 1000, 0⟩ : ChainState).totalIssuance = chainV1.totalIssuance) :=
  c8_chain_state_fields chainV1 dbEmpty blockA ⟨"b1", 50000, 100, 1000, 0⟩ (by rfl)

/-- C5: when the System.Account storage item does not exist at the reference
block's runtime version, the balance fetch returns the sentinel "no balances"
result and reconciliation is skipped for the whole window, non-fatally, in
both processor variants: nothing is upserted and nothing is deleted. -/
theorem c5_missing_storage_skips_window (c : Chain) (db : DB) (b : BlockHeader)
    (ids : List RawId) (hno : ¬ SystemAccountStorage.isExists c) :
    P000.getBalances c ids = none ∧
    P000.saveAccounts c db b ids = db ∧
    P001.getBalances c ids = .ok none ∧
    P001.saveAccounts c db b ids = .ok db := by
  refine ⟨P000_getBalances_none c ids hno,
    P000_saveAccounts_of_not_exists c db b ids hno,
    P001_getBalances_not_exists c ids hno, ?_⟩
  unfold P001.saveAccounts
  rw [P001_getBalances_not_exists c ids hno]
  rfl

/-- C5 witness: at a chain without the System.Account item, both variants leave
the store untouched. -/
theorem c5_missing_storage_witness :
    P000.getBalances chainAbsent [7] = none ∧
    P000.saveAccounts chainAbsent dbEmpty blockA [7] = dbEmpty ∧
    P001.getBalances chainAbsent [7] = .ok none ∧
    P001.saveAccounts chainAbsent dbEmpty blockA [7] = .ok dbEmpty :=
  c5_missing_storage_skips_window chainAbsent dbEmpty blockA [7] (by decide)

/-- C9: an account requested in a reconciliation whose fetched balance entry is
absent is skipped entirely: its persisted row (present or not) is unchanged by
the window, in both processor variants. -/
theorem c9_absent_entry_left_unchanged (c : Chain) (db : DB) (b : BlockHeader)
    (ids : List RawId) (hnd : ids.Nodup) (a : RawId) (ha : a ∈ ids)
    (habs : c.systemAccount a = none) :
    lookupAccount (P000.saveAccounts c db b ids).accounts (encodeId a) =
      lookupAccount db.accounts (encodeId a) ∧
    (∀ db', P001.saveAccounts c db b ids = .ok db' →
      lookupAccount db'.accounts (encodeId a) = lookupAccount db.accounts (encodeId a)) := by
  have hbal : balanceOf c a = none := by
    unfold balanceOf
    rw [habs]
    rfl
  have h0 : lookupAccount (P000.saveAccounts c db b ids).accounts (encodeId a) =
      lookupAccount db.accounts (encodeId a) := by
    by_cases hex : SystemAccountStorage.isExists c
    · rw [P000_saveAccounts_lookup_mem c db b ids hnd hex ha, hbal]
    · rw [P000_saveAccounts_of_not_exists c db b ids hex]
  refine ⟨h0, ?_⟩
  intro db' hdb
  rw [P001_saveAccounts_ok c db b ids db' hdb]
  exact h0

/-- C9 witness: account 9 has no storage entry at the concrete chain, so a
window requesting accounts 7 and 9 leaves 9's (absent) row absent. -/
theorem c9_absent_entry_witness :
    lookupAccount (P000.saveAccounts chainV1 dbEmpty blockA [7, 9]).accounts (encodeId 9) =
      lookupAccount dbEmpty.accounts (encodeId 9) :=
  (c9_absent_entry_left_unchanged chainV1 dbEmpty blockA [7, 9] (by decide) 9
    (by decide) (by decide)).1

/-- C2: for a reconciliation whose fetched balances result is present, each
fetched account's total is free + reserved; a positive total is upserted with
exactly that free, reserved, total and the reference block's height as its
last-updated value, and a zero total removes the row; the second variant's
reconciliation, when it succeeds, has the same effect. -/
theorem c2_reconcile_upsert_delete_policy (c : Chain) (db : DB) (b : BlockHeader)
    (ids : List RawId) (hnd : ids.Nodup) (hex : SystemAccountStorage.isExists c) :
    ∀ a ∈ ids, ∀ bal, balanceOf c a = some bal →
      (0 < bal.free + bal.reserved →
        lookupAccount (P000.saveAccounts c db b ids).accounts (encodeId a) =
          some { id := encodeId a, free := bal.free, reserved := bal.reserved,
                 total := bal.free + bal.reserved, updatedAt := some b.height }) ∧
      (bal.free + bal.reserved = 0 →
        lookupAccount (P000.saveAccounts c db b ids).accounts (encodeId a) = none) ∧
      (∀ db', P001.saveAccounts c db b ids = .ok db' →
        lookupAccount db'.accounts (encodeId a) =
          lookupAccount (P000.saveAccounts c db b ids).accounts (encodeId a)) := by
  intro a ha bal hbal
  refine ⟨?_, ?_, ?_⟩
  · intro htot
    rw [P000_saveAccounts_lookup_mem c db b ids hnd hex ha, hbal]
    exact if_pos htot
  · intro h0
    rw [P000_saveAccounts_lookup_mem c db b ids hnd hex ha, hbal]
    exact if_neg (by omega)
  · intro db' hdb
    rw [P001_saveAccounts_ok c db b ids db' hdb]

/-- C2 witness: account 7 (free 5, reserved 2) is upserted with total 7 and
block height 100; account 8 (zero balance) ends with no row. -/
theorem c2_reconcile_policy_witness :
    lookupAccount (P000.saveAccounts chainV1 dbEmpty blockA [7, 8]).accounts (encodeId 7) =
      some { id := encodeId 7, free := 5, reserved := 2, total := 7, updatedAt := some 100 } ∧
    lookupAccount (P000.saveAccounts chainV1 dbEmpty blockA [7, 8]).accounts (encodeId 8) = none := by
  have h7 := c2_reconcile_upsert_delete_policy chainV1 dbEmpty blockA [7, 8]
    (by decide) (by decide) 7 (by decide) ⟨5, 2⟩ (by decide)
  have h8 := c2_reconcile_upsert_delete_policy chainV1 dbEmpty blockA [7, 8]
    (by decide) (by decide) 8 (by decide) ⟨0, 0⟩ (by decide)
  exact ⟨h7.1 (by decide), h8.2.1 (by decide)⟩

/-- C1: reconciliation preserves the Account-store invariant (every persisted
row has total = free + reserved and total > 0), a fetched account whose total
is 0 has no row after the commit, and the second variant, when it succeeds,
preserves the invariant as well. -/
theorem c1_reconciliation_preserves_account_invariant (c : Chain) (db : DB)
    (b : BlockHeader) (ids : List RawId) (hinv : AccountInvariant db)
    (hnd : ids.Nodup) :
    AccountInvariant (P000.saveAccounts c db b ids) ∧
    (SystemAccountStorage.isExists c → ∀ a ∈ ids, ∀ bal, balanceOf c a = some bal →
      bal.free + bal.reserved = 0 →
      lookupAccount (P000.saveAccounts c db b ids).accounts (encodeId a) = none) ∧
    (∀ db', P001.saveAccounts c db b ids = .ok db' → AccountInvariant db') := by
  have h1 : AccountInvariant (P000.saveAccounts c db b ids) := by
    by_cases hex : SystemAccountStorage.isExists c
    · intro r hr
      rw [P000_saveAccounts_accounts c db b ids hnd hex] at hr
      rcases mem_saveRows (mem_removeRows hr) with hr' | hr'
      · exact mem_filterMap_upsert_wellformed hr'
      · exact hinv r hr'
    · rw [P000_saveAccounts_of_not_exists c db b ids hex]
      exact hinv
  refine ⟨h1, ?_, ?_⟩
  · intro hex a ha bal hbal h0
    rw [P000_saveAccounts_lookup_mem c db b ids hnd hex ha, hbal]
    exact if_neg (by omega)
  · intro db' hdb
    rw [P001_saveAccounts_ok c db b ids db' hdb]
    exact h1

/-- C1 witness: reconciling accounts 7 (total 7) and 8 (total 0) against the
empty store yields a store satisfying the invariant, with no row for 8. -/
theorem c1_account_invariant_witness :
    AccountInvariant (P000.saveAccounts chainV1 dbEmpty blockA [7, 8]) ∧
    lookupAccount (P000.saveAccounts chainV1 dbEmpty blockA [7, 8]).accounts (encodeId 8) = none := by
  have h := c1_reconciliation_preserves_account_invariant chainV1 dbEmpty blockA [7, 8]
    (fun a ha => absurd ha (List.not_mem_nil a)) (by decide)
  exact ⟨h.1, h.2.1 (by decide) 8 (by decide) ⟨0, 0⟩ (by decide) (by decide)⟩

/-- C3 (amended): every supported event kind raises UnknownVersionError when
the event's fingerprint matches none of its known decoder versions, and so
does the total-issuance storage read when the item exists with an unknown
fingerprint; the System.Account balance fetch however does not: the part_000
variant performs no version check and decodes whatever fingerprint is present,
and the part_001 variant falls back to the V3 accessor, whose assertion fails
with a generic assertion error instead of UnknownVersionError. -/
theorem c3_unknown_version_handling :
    (∀ e : Event, e.version ≠ .v1 → e.version ≠ .v3110 →
      getBalanceSetAccount e = .error (.unknownVersion "BalancesBalanceSetEvent") ∧
      getTransferAccounts e = .error (.unknownVersion "BalancesTransferEvent") ∧
      getEndowedAccount e = .error (.unknownVersion "BalancesEndowedEvent") ∧
      getDepositAccount e = .error (.unknownVersion "BalancesDepositEvent") ∧
      getReservedAccount e = .error (.unknownVersion "BalancesReservedEvent") ∧
      getUnreservedAccount e = .error (.unknownVersion "BalancesUnreservedEvent") ∧
      getReserveRepatriatedAccounts e =
        .error (.unknownVersion "BalancesReserveRepatriatedEvent")) ∧
    (∀ e : Event, e.version ≠ .v3100 → e.version ≠ .v3110 →
      getWithdrawAccount e = .error (.unknownVersion "BalancesWithdrawEvent") ∧
      getSlashedAccount e = .error (.unknownVersion "BalancesSlashedEvent")) ∧
    (∀ c : Chain, BalancesTotalIssuanceStorage.isExists c →
      ¬ BalancesTotalIssuanceStorage.isV1 c →
      getTotalIssuance c = .error (.unknownVersion "BalancesTotalIssuanceStorage")) ∧
    (∀ (c : Chain) (ids : List RawId), SystemAccountStorage.isExists c →
      ∃ bs, P000.getSystemAccountBalances c ids = some bs) ∧
    (∀ (c : Chain) (ids : List RawId), SystemAccountStorage.isExists c →
      ¬ SystemAccountStorage.isV1 c → ¬ SystemAccountStorage.isV3 c →
      P001.getSystemAccountBalances c ids = .error .assertFailed) := by
  refine ⟨?_, ?_, ?_, ?_, ?_⟩
  · intro e h1 h3110
    unfold getBalanceSetAccount getTransferAccounts getEndowedAccount
      getDepositAccount getReservedAccount getUnreservedAccount
      getReserveRepatriatedAccounts
    simp only [if_neg h1, if_neg h3110]
    exact ⟨trivial, trivial, trivial, trivial, trivial, trivial, trivial⟩
  · intro e h3100 h3110
    unfold getWithdrawAccount getSlashedAccount
    simp only [if_neg h3100, if_neg h3110]
    exact ⟨trivial, trivial⟩
  · exact getTotalIssuance_unknown
  · intro c ids hex
    unfold P000.getSystemAccountBalances
    rw [if_neg (not_not_intro hex)]
    exact ⟨_, rfl⟩
  · intro c ids hex hv1 hv3
    exact P001_getBalances_unknown c ids hex hv1 hv3

/-- C3 counterexample: at the concrete chain whose System.Account fingerprint
is "00" — matching no known decoder version — the part_000 balance fetch
succeeds (it never checks the fingerprint) and the part_001 fetch fails with a
generic assertion error; neither raises UnknownVersionError, so unknown
fingerprints on the System.Account storage category do not produce the claimed
failure. -/
theorem c3_system_account_no_unknown_version_error :
    P000.getSystemAccountBalances chainUnknown [5] = some [none] ∧
    P001.getSystemAccountBalances chainUnknown [5] = .error .assertFailed := by
  constructor
  · rfl
  · rfl

/-- C3 witness: a legacy-fingerprint event raises UnknownVersionError, as does
the issuance read at an unknown fingerprint, while the part_001 System.Account
fetch fails with the generic assertion error. -/
theorem c3_unknown_version_witness :
    getBalanceSetAccount ⟨.legacy, 0, 0⟩ =
      .error (.unknownVersion "BalancesBalanceSetEvent") ∧
    getWithdrawAccount ⟨.v1, 0, 0⟩ =
      .error (.unknownVersion "BalancesWithdrawEvent") ∧
    getTotalIssuance chainUnknown =
      .error (.unknownVersion "BalancesTotalIssuanceStorage") ∧
    P001.getSystemAccountBalances chainUnknown [5] = .error .assertFailed :=
  ⟨(c3_unknown_version_handling.1 ⟨.legacy, 0, 0⟩ (by decide) (by decide)).1,
   (c3_unknown_version_handling.2.1 ⟨.v1, 0, 0⟩ (by decide) (by decide)).1,
   c3_unknown_version_handling.2.2.1 chainUnknown (by decide) (by decide),
   c3_unknown_version_handling.2.2.2.2 chainUnknown [5] (by decide) (by decide) (by decide)⟩

/-- C10: in a reconciliation the upsert map and the deletion map are keyed by
disjoint sets of encoded account ids, and every requested account whose
balance entry is present is classified into exactly one of the two maps:
upserts when its total is positive, deletions when its total is zero. -/
theorem c10_upsert_delete_disjoint (c : Chain) (height : Nat)
    (ids : List RawId) (hnd : ids.Nodup) :
    (∀ x : AccountId,
      ¬ (x ∈ (classifyAccounts height ids (ids.map (balanceOf c)) [] []).1.map Prod.fst ∧
         x ∈ (classifyAccounts height ids (ids.map (balanceOf c)) [] []).2.map Prod.fst)) ∧
    (∀ a ∈ ids, ∀ bal, balanceOf c a = some bal →
      (0 < bal.free + bal.reserved →
        encodeId a ∈ (classifyAccounts height ids (ids.map (balanceOf c)) [] []).1.map Prod.fst ∧
        encodeId a ∉ (classifyAccounts height ids (ids.map (balanceOf c)) [] []).2.map Prod.fst) ∧
      (bal.free + bal.reserved = 0 →
        encodeId a ∉ (classifyAccounts height ids (ids.map (balanceOf c)) [] []).1.map Prod.fst ∧
        encodeId a ∈ (classifyAccounts height ids (ids.map (balanceOf c)) [] []).2.map Prod.fst)) := by
  have hsp := classifyAccounts_spec height (balanceOf c) ids hnd
  have h1 : (classifyAccounts height ids (ids.map (balanceOf c)) [] []).1 =
      ids.filterMap (fun a => (upsertRow (balanceOf c) height a).map fun r => (encodeId a, r)) := by
    rw [hsp]
  have h2 : (classifyAccounts height ids (ids.map (balanceOf c)) [] []).2 =
      ids.filterMap (fun a => (deleteRow (balanceOf c) a).map fun r => (encodeId a, r)) := by
    rw [hsp]
  rw [h1, h2]
  constructor
  · rintro x ⟨hx1, hx2⟩
    obtain ⟨a1, ha1, hax1, hs1⟩ := (keys_filterMap_pair _ ids x).1 hx1
    obtain ⟨a2, ha2, hax2, hs2⟩ := (keys_filterMap_pair _ ids x).1 hx2
    obtain ⟨bal1, hbal1, hpos⟩ := upsertRow_isSome.1 hs1
    obtain ⟨bal2, hbal2, hneg⟩ := deleteRow_isSome.1 hs2
    have ha12 : a1 = a2 :=
      (encodeId_eq a1).symm.trans (hax1.trans (hax2.symm.trans (encodeId_eq a2)))
    rw [ha12, hbal2] at hbal1
    exact hneg (Option.some.inj hbal1 ▸ hpos)
  · intro a ha bal hbal
    constructor
    · intro htot
      constructor
      · exact (keys_filterMap_pair _ ids (encodeId a)).2
          ⟨a, ha, rfl, upsertRow_isSome.2 ⟨bal, hbal, htot⟩⟩
      · intro hmem
        obtain ⟨a2, ha2, hax2, hs2⟩ := (keys_filterMap_pair _ ids (encodeId a)).1 hmem
        obtain ⟨bal2, hbal2, hneg⟩ := deleteRow_isSome.1 hs2
        have ha2a : a2 = a :=
          (encodeId_eq a2).symm.trans (hax2.trans (encodeId_eq a))
        rw [ha2a, hbal] at hbal2
        exact hneg (Option.some.inj hbal2 ▸ htot)
    · intro h0
      have hneg : ¬ 0 < bal.free + bal.reserved := by omega
      constructor
      · intro hmem
        obtain ⟨a1, ha1, hax1, hs1⟩ := (keys_filterMap_pair _ ids (encodeId a)).1 hmem
        obtain ⟨bal1, hbal1, hpos⟩ := upsertRow_isSome.1 hs1
        have ha1a : a1 = a :=
          (encodeId_eq a1).symm.trans (hax1.trans (encodeId_eq a))
        rw [ha1a, hbal] at hbal1
        exact hneg (Option.some.inj hbal1 ▸ hpos)
      · exact (keys_filterMap_pair _ ids (encodeId a)).2
          ⟨a, ha, rfl, deleteRow_isSome.2 ⟨bal, hbal, hneg⟩⟩

/-- C10 witness: classifying accounts 7 (total 7) and 8 (total 0) puts 7 in
the upsert map only and 8 in the deletion map only. -/
theorem c10_upsert_delete_witness :
    encodeId 7 ∈ (classifyAccounts 100 [7, 8] ([7, 8].map (balanceOf chainV1)) [] []).1.map Prod.fst ∧
    encodeId 7 ∉ (classifyAccounts 100 [7, 8] ([7, 8].map (balanceOf chainV1)) [] []).2.map Prod.fst ∧
    encodeId 8 ∉ (classifyAccounts 100 [7, 8] ([7, 8].map (balanceOf chainV1)) [] []).1.map Prod.fst ∧
    encodeId 8 ∈ (classifyAccounts 100 [7, 8] ([7, 8].map (balanceOf chainV1)) [] []).2.map Prod.fst := by
  have h := c10_upsert_delete_disjoint chainV1 100 [7, 8] (by decide)
  have h7 := (h.2 7 (by decide) ⟨5, 2⟩ (by decide)).1 (by decide)
  have h8 := (h.2 8 (by decide) ⟨0, 0⟩ (by decide)).2 (by decide)
  exact ⟨h7.1, h7.2, h8.1, h8.2⟩

theorem except_bind_ok {ε α β : Type} (a : α) (f : α → Except ε β) :
    ((Except.ok a : Except ε α) >>= f) = f a := rfl

theorem P000_processBlock_eq (chainAt : String → Chain) (db : DB)
    (lastTs : Option Int) (acc : List HexId) (b : BatchBlock) :
    P000.processBlock chainAt (⟨db, lastTs⟩, acc) b =
      (accumulateTouched b.items acc >>= fun acc1 =>
        if P000.SAVE_PERIOD ≤ b.header.timestamp -
            (match lastTs with
             | some t => t
             | none =>
                 match P000.getLastChainState db with
                 | some cs => cs.timestamp
                 | none => 0) then
          saveRegularChainState (chainAt b.header.hash)
            (P000.saveAccounts (chainAt b.header.hash) db b.header
              (acc1.map decodeHex))
            b.header >>= fun db2 =>
          .ok (⟨db2, some b.header.timestamp⟩, [])
        else
          .ok (⟨db, some (match lastTs with
             | some t => t
             | none =>
                 match P000.getLastChainState db with
                 | some cs => cs.timestamp
                 | none => 0)⟩, acc1)) := rfl

/-- C4: per block, `lastStateTimestamp` is lazily initialized from the most
recent persisted ChainState row's timestamp (zero when no row exists), a
durable ChainState row for the block is inserted exactly when the block's
timestamp minus that value is at least SAVE_PERIOD — after which the timestamp
is set to the block's timestamp and the accumulator cleared — and nothing is
inserted (the store is untouched) when the interval has not elapsed. -/
theorem c4_snapshot_cadence (chainAt : String → Chain) (db : DB)
    (lastTs : Option Int) (acc : List HexId) (b : BatchBlock)
    (st' : P000.ProcState) (acc' : List HexId) (lastTs0 : Int)
    (hinit : lastTs0 = match lastTs with
      | some t => t
      | none =>
          match P000.getLastChainState db with
          | some cs => cs.timestamp
          | none => 0)
    (h : P000.processBlock chainAt (⟨db, lastTs⟩, acc) b = .ok (st', acc')) :
    (P000.getLastChainState db = none ↔ db.chainStates = []) ∧
    (∀ best, P000.getLastChainState db = some best →
      ∀ cs ∈ db.chainStates, cs.timestamp ≤ best.timestamp) ∧
    (P000.SAVE_PERIOD ≤ b.header.timestamp - lastTs0 →
      ∃ st : ChainState, st'.db.chainStates = db.chainStates ++ [st] ∧
        st.id = b.header.id ∧ st.blockNumber = b.header.height ∧
        st.timestamp = b.header.timestamp ∧
        st'.lastStateTimestamp = some b.header.timestamp ∧ acc' = []) ∧
    (¬ P000.SAVE_PERIOD ≤ b.header.timestamp - lastTs0 →
      st'.db = db ∧ st'.lastStateTimestamp = some lastTs0 ∧
      accumulateTouched b.items acc = .ok acc') := by
  rw [P000_processBlock_eq, ← hinit] at h
  refine ⟨getLastChainState_none db,
    fun best hb => (getLastChainState_max db best hb).2, ?_, ?_⟩
  all_goals
    cases hacc1 : accumulateTouched b.items acc with
    | error e =>
        rw [hacc1] at h
        exact absurd ((rfl : ((Except.error e : Except PipelineError (List HexId)) >>= _) =
          Except.error e) ▸ h) (by intro hc; cases hc)
    | ok acc1 =>
        rw [hacc1, except_bind_ok] at h
        by_cases hcad : P000.SAVE_PERIOD ≤ b.header.timestamp - lastTs0
        · rw [if_pos hcad] at h
          first
          | · intro _
              cases hreg : saveRegularChainState (chainAt b.header.hash)
                  (P000.saveAccounts (chainAt b.header.hash) db b.header
                    (acc1.map decodeHex)) b.header with
              | error e =>
                  rw [hreg] at h
                  exact absurd ((rfl : ((Except.error e : Except PipelineError DB) >>= _) =
                    Except.error e) ▸ h) (by intro hc; cases hc)
              | ok db2 =>
                  rw [hreg, except_bind_ok] at h
                  have h4 := Except.ok.inj h
                  rw [Prod.mk.injEq] at h4
                  obtain ⟨h5, h6⟩ := h4
                  obtain ⟨st, hcs, hdb2⟩ := saveRegularChainState_ok _ _ _ _ hreg
                  obtain ⟨issuance, _, hst⟩ := getChainState_ok _ _ _ _ hcs
                  refine ⟨st, ?_, by rw [hst], by rw [hst], by rw [hst], ?_, h6.symm⟩
                  · rw [← h5, hdb2]
                    have hpres := (P000_saveAccounts_chainStates (chainAt b.header.hash)
                      db b.header (acc1.map decodeHex)).1
                    show (P000.saveAccounts (chainAt b.header.hash) db b.header
                      (acc1.map decodeHex)).chainStates ++ [st] = db.chainStates ++ [st]
                    rw [hpres]
                  · rw [← h5]
          | · intro hncad
              exact absurd hcad hncad
        · rw [if_neg hcad] at h
          first
          | · intro hcad2
              exact absurd hcad2 hcad
          | · intro _
              have h4 := Except.ok.inj h
              rw [Prod.mk.injEq] at h4
              obtain ⟨h5, h6⟩ := h4
              refine ⟨?_, ?_, ?_⟩
              · rw [← h5]
              · rw [← h5]
              · rw [h6]

/-- C4 witness: with `lastStateTimestamp = 0` and a block at exactly the save
period, processing the block inserts one durable ChainState row for it, sets
the timestamp to the block's, and clears the accumulator. -/
theorem c4_snapshot_cadence_witness :
    ∃ st : ChainState,
      (⟨⟨[⟨7, 5, 2, 7, some 120⟩], [⟨"b2", 43200000, 120, 1000, 1⟩], none⟩,
        some 43200000⟩ : P000.ProcState).db.chainStates =
        dbEmpty.chainStates ++ [st] ∧
      st.id = blockTrig.id ∧ st.blockNumber = blockTrig.height ∧
      st.timestamp = blockTrig.timestamp ∧
      (⟨⟨[⟨7, 5, 2, 7, some 120⟩], [⟨"b2", 43200000, 120, 1000, 1⟩], none⟩,
        some 43200000⟩ : P000.ProcState).lastStateTimestamp =
        some blockTrig.timestamp ∧
      ([] : List HexId) = [] :=
  (c4_snapshot_cadence (fun _ => chainV1) dbEmpty (some 0) []
    ⟨blockTrig, [endowedItem]⟩
    ⟨⟨[⟨7, 5, 2, 7, some 120⟩], [⟨"b2", 43200000, 120, 1000, 1⟩], none⟩,
      some 43200000⟩
    [] 0 (by rfl) (by rfl)).2.2.1 (by decide)

theorem P000_processBalances_eq (chainAt : String → Chain) (st : P000.ProcState)
    (blocks : List BatchBlock) :
    P000.processBalances chainAt st blocks =
      (blocks.foldlM (P000.processBlock chainAt) (st, []) >>= fun folded =>
        match blocks.getLast? with
        | none => .error .typeError
        | some b =>
            saveCurrentChainState (chainAt b.header.hash)
              (P000.saveAccounts (chainAt b.header.hash) folded.1.db b.header
                (folded.2.map decodeHex)) b.header >>= fun db2 =>
            .ok ⟨db2, folded.1.lastStateTimestamp⟩) := rfl

theorem P001_processBalances_eq (chainAt : String → Chain) (db : DB)
    (blocks : List BatchBlock) :
    P001.processBalances chainAt db blocks =
      (blocks.foldlM (fun acc b => b.items.foldlM (fun acc item =>
          if item.kind = "event" then processBalancesEventItem item acc
          else .ok acc) acc) [] >>= fun acc =>
        match blocks.getLast? with
        | none => .error .typeError
        | some b =>
            saveRegularChainState (chainAt b.header.hash) db b.header >>= fun db1 =>
            P001.saveAccounts (chainAt b.header.hash) db1 b.header
              (acc.map decodeHex) >>= fun db2 =>
            .ok db2) := rfl

theorem P001_saveAccounts_chainStates (c : Chain) (db : DB) (b : BlockHeader)
    (ids : List RawId) (db' : DB) (h : P001.saveAccounts c db b ids = .ok db') :
    db'.chainStates = db.chainStates ∧ db'.currentChainState = db.currentChainState := by
  rw [P001_saveAccounts_ok c db b ids db' h]
  exact P000_saveAccounts_chainStates c db b ids

/-- C6 (amended): in the part_000 driver the account reconciliation runs before
each chain-state write, so both the mid-window durable snapshot's and the final
current-state record's token-holder counts reflect the window's upserts and
deletions (they equal the resulting store's account count); in the part_001
driver the durable ChainState row is written before the reconciliation, so its
token-holder count equals the account count before the window's changes. -/
theorem c6_driver_order (chainAt : String → Chain) :
    (∀ (db : DB) (lastTs : Option Int) (acc : List HexId) (b : BatchBlock)
        (st' : P000.ProcState) (acc' : List HexId),
      P000.processBlock chainAt (⟨db, lastTs⟩, acc) b = .ok (st', acc') →
      ∀ st : ChainState, st'.db.chainStates = db.chainStates ++ [st] →
        st.tokenHolders = st'.db.accounts.length) ∧
    (∀ (st0 : P000.ProcState) (blocks : List BatchBlock) (out : P000.ProcState),
      P000.processBalances chainAt st0 blocks = .ok out →
      ∀ cur : ChainState, out.db.currentChainState = some cur →
        cur.tokenHolders = out.db.accounts.length) ∧
    (∀ (db : DB) (blocks : List BatchBlock) (out : DB),
      P001.processBalances chainAt db blocks = .ok out →
      ∀ st : ChainState, out.chainStates = db.chainStates ++ [st] →
        st.tokenHolders = db.accounts.length) := by
  refine ⟨?_, ?_, ?_⟩
  · intro db lastTs acc b st' acc' h st hpre
    rw [P000_processBlock_eq] at h
    cases hacc1 : accumulateTouched b.items acc with
    | error e =>
        rw [hacc1] at h
        exact absurd ((rfl : ((Except.error e : Except PipelineError (List HexId)) >>= _) =
          Except.error e) ▸ h) (by intro hc; cases hc)
    | ok acc1 =>
        rw [hacc1, except_bind_ok] at h
        revert h
        generalize (match lastTs with
             | some t => t
             | none =>
                 match P000.getLastChainState db with
                 | some cs => cs.timestamp
                 | none => 0 : Int) = lastM
        intro h
        by_cases hcad : P000.SAVE_PERIOD ≤ b.header.timestamp - lastM
        · rw [if_pos hcad] at h
          cases hreg : saveRegularChainState (chainAt b.header.hash)
              (P000.saveAccounts (chainAt b.header.hash) db b.header
                (acc1.map decodeHex)) b.header with
          | error e =>
              rw [hreg] at h
              exact absurd ((rfl : ((Except.error e : Except PipelineError DB) >>= _) =
                Except.error e) ▸ h) (by intro hc; cases hc)
          | ok db2 =>
              rw [hreg, except_bind_ok] at h
              have h4 := Except.ok.inj h
              rw [Prod.mk.injEq] at h4
              obtain ⟨h5, h6⟩ := h4
              obtain ⟨stR, hcs, hdb2⟩ := saveRegularChainState_ok _ _ _ _ hreg
              have hpres := (P000_saveAccounts_chainStates (chainAt b.header.hash)
                db b.header (acc1.map decodeHex)).1
              rw [← h5] at hpre
              have hpre2 : db.chainStates ++ [stR] = db.chainStates ++ [st] := by
                have hshape : db2.chainStates = db.chainStates ++ [stR] := by
                  rw [hdb2]
                  show (P000.saveAccounts (chainAt b.header.hash) db b.header
                    (acc1.map decodeHex)).chainStates ++ [stR] = db.chainStates ++ [stR]
                  rw [hpres]
                rw [← hshape]
                exact hpre
              have hst : stR = st := by
                have := List.append_cancel_left hpre2
                exact List.singleton_injective this
              rw [← hst, ← h5]
              have hacc : db2.accounts =
                  (P000.saveAccounts (chainAt b.header.hash) db b.header
                    (acc1.map decodeHex)).accounts := by
                rw [hdb2]
              show stR.tokenHolders = db2.accounts.length
              rw [hacc]
              exact getChainState_tokenHolders _ _ _ _ hcs
        · rw [if_neg hcad] at h
          have h4 := Except.ok.inj h
          rw [Prod.mk.injEq] at h4
          obtain ⟨h5, h6⟩ := h4
          rw [← h5] at hpre
          exfalso
          have hlen := congrArg List.length hpre
          simp at hlen
  · intro st0 blocks out h cur hcur
    rw [P000_processBalances_eq] at h
    cases hfold : blocks.foldlM (P000.processBlock chainAt) (st0, []) with
    | error e =>
        rw [hfold] at h
        exact absurd ((rfl : ((Except.error e :
          Except PipelineError (P000.ProcState × List HexId)) >>= _) =
          Except.error e) ▸ h) (by intro hc; cases hc)
    | ok folded =>
        rw [hfold, except_bind_ok] at h
        cases hlast : blocks.getLast? with
        | none =>
            rw [hlast] at h
            have hc : (Except.error PipelineError.typeError :
                Except PipelineError P000.ProcState) = .ok out := h
            cases hc
        | some b =>
            rw [hlast] at h
            have h2 : (saveCurrentChainState (chainAt b.header.hash)
                (P000.saveAccounts (chainAt b.header.hash) folded.1.db b.header
                  (folded.2.map decodeHex)) b.header >>= fun db2 =>
                (Except.ok (⟨db2, folded.1.lastStateTimestamp⟩ : P000.ProcState))) =
                .ok out := h
            cases hsave : saveCurrentChainState (chainAt b.header.hash)
                (P000.saveAccounts (chainAt b.header.hash) folded.1.db b.header
                  (folded.2.map decodeHex)) b.header with
            | error e =>
                rw [hsave] at h2
                exact absurd ((rfl : ((Except.error e : Except PipelineError DB) >>= _) =
                  Except.error e) ▸ h2) (by intro hc; cases hc)
            | ok db2 =>
                rw [hsave, except_bind_ok] at h2
                have h5 := Except.ok.inj h2
                obtain ⟨stC, hcs, hdb2⟩ := saveCurrentChainState_ok _ _ _ _ hsave
                rw [← h5] at hcur
                have hcur2 : db2.currentChainState = some cur := hcur
                rw [hdb2] at hcur2
                have hcur3 : stC = cur := Option.some.inj hcur2
                rw [← h5, ← hcur3]
                show stC.tokenHolders = db2.accounts.length
                rw [hdb2]
                exact getChainState_tokenHolders _ _ _ _ hcs
  · intro db blocks out h st hpre
    rw [P001_processBalances_eq] at h
    cases hfold : blocks.foldlM (fun acc b => b.items.foldlM (fun acc item =>
        if item.kind = "event" then processBalancesEventItem item acc
        else .ok acc) acc) ([] : List HexId) with
    | error e =>
        rw [hfold] at h
        exact absurd ((rfl : ((Except.error e : Except PipelineError (List HexId)) >>= _) =
          Except.error e) ▸ h) (by intro hc; cases hc)
    | ok acc =>
        rw [hfold, except_bind_ok] at h
        cases hlast : blocks.getLast? with
        | none =>
            rw [hlast] at h
            have hc : (Except.error PipelineError.typeError :
                Except PipelineError DB) = .ok out := h
            cases hc
        | some b =>
            rw [hlast] at h
            have h2 : (saveRegularChainState (chainAt b.header.hash) db b.header >>=
                fun db1 => P001.saveAccounts (chainAt b.header.hash) db1 b.header
                  (acc.map decodeHex) >>= fun db2 => (Except.ok db2 : Except PipelineError DB)) =
                .ok out := h
            cases hreg : saveRegularChainState (chainAt b.header.hash) db b.header with
            | error e =>
                rw [hreg] at h2
                exact absurd ((rfl : ((Except.error e : Except PipelineError DB) >>= _) =
                  Except.error e) ▸ h2) (by intro hc; cases hc)
            | ok db1 =>
                rw [hreg, except_bind_ok] at h2
                cases hsa : P001.saveAccounts (chainAt b.header.hash) db1 b.header
                    (acc.map decodeHex) with
                | error e =>
                    rw [hsa] at h2
                    exact absurd ((rfl : ((Except.error e : Except PipelineError DB) >>= _) =
                      Except.error e) ▸ h2) (by intro hc; cases hc)
                | ok db2 =>
                    rw [hsa, except_bind_ok] at h2
                    have h5 := Except.ok.inj h2
                    obtain ⟨stR, hcs, hdb1⟩ := saveRegularChainState_ok _ _ _ _ hreg
                    have hpres := (P001_saveAccounts_chainStates _ _ _ _ _ hsa).1
                    rw [← h5] at hpre
                    have hpre2 : db.chainStates ++ [stR] = db.chainStates ++ [st] := by
                      have hshape : db1.chainStates = db.chainStates ++ [stR] := by
                        rw [hdb1]
                      rw [← hshape, ← hpres]
                      exact hpre
                    have hst : stR = st := by
                      have := List.append_cancel_left hpre2
                      exact List.singleton_injective this
                    rw [← hst]
                    exact getChainState_tokenHolders _ _ _ _ hcs

/-- C6 counterexample: in the part_001 driver, a window endowing account 7
(post-window balance 5 free / 2 reserved) against an empty store inserts its
durable ChainState row with tokenHolders = 0 — the count before the window's
upsert — while the store ends the window with 1 account row; the snapshot
therefore runs before, not after, the reconciliation. -/
theorem c6_snapshot_before_reconcile :
    P001.processBalances (fun _ => chainV1) dbEmpty [⟨blockA, [endowedItem]⟩] =
      .ok { accounts := [{ id := 7, free := 5, reserved := 2, total := 7,
                           updatedAt := some 100 }],
            chainStates := [{ id := "b1", timestamp := 50000, blockNumber := 100,
                              totalIssuance := 1000, tokenHolders := 0 }],
            currentChainState := none } := by
  rfl

/-- C6 witness: in the part_000 driver, the block that triggers a durable
snapshot records tokenHolders = 1 — the account count after the window's
upsert — and the final current state matches the resulting account count. -/
theorem c6_driver_order_witness :
    (⟨"b2", 43200000, 120, 1000, 1⟩ : ChainState).tokenHolders =
      (⟨⟨[⟨7, 5, 2, 7, some 120⟩], [⟨"b2", 43200000, 120, 1000, 1⟩], none⟩,
        some 43200000⟩ : P000.ProcState).db.accounts.length ∧
    (⟨"b2", 43200000, 120, 1000, 1⟩ : ChainState).tokenHolders =
      (⟨⟨[⟨7, 5, 2, 7, some 120⟩], [⟨"b2", 43200000, 120, 1000, 1⟩],
          some ⟨"b2", 43200000, 120, 1000, 1⟩⟩, some 43200000⟩ :
        P000.ProcState).db.accounts.length ∧
    (⟨"b1", 50000, 100, 1000, 0⟩ : ChainState).tokenHolders =
      dbEmpty.accounts.length := by
  refine ⟨?_, ?_, ?_⟩
  · exact (c6_driver_order (fun _ => chainV1)).1 dbEmpty (some 0) []
      ⟨blockTrig, [endowedItem]⟩
      ⟨⟨[⟨7, 5, 2, 7, some 120⟩], [⟨"b2", 43200000, 120, 1000, 1⟩], none⟩,
        some 43200000⟩ [] (by rfl) ⟨"b2", 43200000, 120, 1000, 1⟩ (by rfl)
  · exact (c6_driver_order (fun _ => chainV1)).2.1 ⟨dbEmpty, some 0⟩
      [⟨blockTrig, [endowedItem]⟩]
      ⟨⟨[⟨7, 5, 2, 7, some 120⟩], [⟨"b2", 43200000, 120, 1000, 1⟩],
          some ⟨"b2", 43200000, 120, 1000, 1⟩⟩, some 43200000⟩ (by rfl)
      ⟨"b2", 43200000, 120, 1000, 1⟩ (by rfl)
  · exact (c6_driver_order (fun _ => chainV1)).2.2 dbEmpty [⟨blockA, [endowedItem]⟩]
      { accounts := [⟨7, 5, 2, 7, some 100⟩],
        chainStates := [⟨"b1", 50000, 100, 1000, 0⟩],
        currentChainState := none } (by rfl) ⟨"b1", 50000, 100, 1000, 0⟩ (by rfl)

/-- C7: window accumulation is a deduplicating set — the accumulated list has
no duplicates, a permutation of the window's items accumulates the same set,
appending a duplicate of an already-processed item leaves the accumulated set
unchanged, and reconciliation driven by two accumulations with the same
membership produces identical per-account store contents. -/
theorem c7_accumulation_set_semantics (items perm : List EventItem)
    (it : EventItem) (s s' t : List HexId) (c : Chain) (db : DB)
    (b : BlockHeader) (hs : accumulateTouched items [] = .ok s)
    (hperm : items.Perm perm) (hs' : accumulateTouched perm [] = .ok s')
    (hstep : processBalancesEventItem it s = .ok t) :
    s.Nodup ∧
    (∀ x, x ∈ s' ↔ x ∈ s) ∧
    accumulateTouched (items ++ [it]) [] = .ok t ∧
    accumulateTouched (items ++ [it, it]) [] = .ok t ∧
    (∀ k, lookupAccount (P000.saveAccounts c db b (s'.map decodeHex)).accounts k =
      lookupAccount (P000.saveAccounts c db b (s.map decodeHex)).accounts k) := by
  have hnd : s.Nodup := accumulateTouched_nodup items [] s List.nodup_nil hs
  have hnd' : s'.Nodup := accumulateTouched_nodup perm [] s' List.nodup_nil hs'
  have hmem : ∀ x, x ∈ s' ↔ x ∈ s := by
    intro x
    rw [accumulateTouched_mem perm [] s' hs' x, accumulateTouched_mem items [] s hs x]
    constructor
    · rintro (hx | ⟨it', hit', rest⟩)
      · exact absurd hx (List.not_mem_nil x)
      · exact Or.inr ⟨it', hperm.mem_iff.2 hit', rest⟩
    · rintro (hx | ⟨it', hit', rest⟩)
      · exact absurd hx (List.not_mem_nil x)
      · exact Or.inr ⟨it', hperm.mem_iff.1 hit', rest⟩
  obtain ⟨hd1, hd2⟩ := accumulateTouched_dup items it s t hs hstep
  refine ⟨hnd, hmem, hd1, hd2, ?_⟩
  intro k
  rw [decodeHex_map, decodeHex_map]
  exact saveAccounts_lookup_congr c db b s' s hnd' hnd hmem k

/-- C7 witness: a window of an endow of 7 followed by a transfer 7→8
accumulates exactly the set [7, 8], the same as the permuted window; endowing
7 again changes nothing, and both orders reconcile to the same store. -/
theorem c7_accumulation_witness :
    ([7, 8] : List HexId).Nodup ∧
    (∀ x, x ∈ ([7, 8] : List HexId) ↔ x ∈ ([7, 8] : List HexId)) ∧
    accumulateTouched ([endowedItem, transferItem] ++ [endowedItem]) [] = .ok [7, 8] ∧
    accumulateTouched ([endowedItem, transferItem] ++ [endowedItem, endowedItem]) [] =
      .ok [7, 8] ∧
    (∀ k, lookupAccount (P000.saveAccounts chainV1 dbEmpty blockA
        (([7, 8] : List HexId).map decodeHex)).accounts k =
      lookupAccount (P000.saveAccounts chainV1 dbEmpty blockA
        (([7, 8] : List HexId).map decodeHex)).accounts k) :=
  c7_accumulation_set_semantics [endowedItem, transferItem]
    [transferItem, endowedItem] endowedItem [7, 8] [7, 8] [7, 8]
    chainV1 dbEmpty blockA (by rfl)
    (List.Perm.swap transferItem endowedItem []) (by rfl) (by rfl)
